import Mathlib

/-!
Shundori attendance bot: window gate and attendance ledger.

A shallow embedding of `nodejs/config.js`, `nodejs/scheduler.js`,
`nodejs/database.js`, `nodejs/attendance.js`, `nodejs/reports.js` and the
settings commands of `nodejs/bot.js`.

* Instants are epoch milliseconds (`Int`); a JavaScript `Date` or a moment
  object is the instant it denotes.
* The zone `Asia/Phnom_Penh` is UTC+7 without daylight saving, so zone-local
  time is the instant shifted by seven hours.
* A `YYYY-MM-DD` day key is the number of the civil day it names.
* The relational store is a record of row lists; a `SERIAL` column takes its
  value from a counter kept next to the table.
* The column `created_at` is written by the store and read by nobody; it is
  left out.
-/

namespace Shundori

/-! ## config.js -/

/-- Offset of `Asia/Phnom_Penh` from UTC, in milliseconds. -/
def UTC_OFFSET_MS : Int := 25200000

def MS_PER_SECOND : Int := 1000
def MS_PER_MINUTE : Int := 60000
def MS_PER_HOUR : Int := 3600000
def MS_PER_DAY : Int := 86400000

/-- Zone-local milliseconds of an instant. -/
def localMs (t : Int) : Int := t + UTC_OFFSET_MS

/-- Milliseconds since local midnight. -/
def timeOfDay (t : Int) : Int := localMs t % MS_PER_DAY

/-- Getter `moment#hour()`. -/
def hourOf (t : Int) : Int := (localMs t % MS_PER_DAY) / MS_PER_HOUR

/-- Getter `moment#minute()`. -/
def minuteOf (t : Int) : Int := (localMs t % MS_PER_HOUR) / MS_PER_MINUTE

/-- Getter `moment#second()`. -/
def secondOf (t : Int) : Int := (localMs t % MS_PER_MINUTE) / MS_PER_SECOND

/-- Getter `moment#millisecond()`. -/
def millisecondOf (t : Int) : Int := localMs t % MS_PER_SECOND

/-- Setter `moment#hour(h)`: replaces the hour field, the other fields stay;
a value outside `0..23` bubbles up into the day. -/
def setHour (t : Int) (h : Int) : Int := t + (h - hourOf t) * MS_PER_HOUR

/-- Setter `moment#minute(m)`. -/
def setMinute (t : Int) (m : Int) : Int := t + (m - minuteOf t) * MS_PER_MINUTE

/-- Setter `moment#second(s)`. -/
def setSecond (t : Int) (s : Int) : Int := t + (s - secondOf t) * MS_PER_SECOND

/-- Setter `moment#millisecond(ms)`. -/
def setMillisecond (t : Int) (ms : Int) : Int := t + (ms - millisecondOf t)

/-- Amounts of money: the JavaScript numbers stored in `fines.amount`. No
arithmetic is done on them by the ledger, they are only copied. -/
abbrev Amount := ℚ

/-- The object `config`. A clock string `HH:MM` is held as the pair
`(hour, minute)` that `split(':').map(Number)` makes of it. -/
structure Config where
  ADMIN_ID : Int
  DEFAULT_FINE_AMOUNT : Amount
  ATTENDANCE_WINDOW_START : Nat × Nat
  ATTENDANCE_WINDOW_END : Nat × Nat
  REPORT_TIME : Nat × Nat
deriving DecidableEq, Repr

/-- The values `config` takes when the environment sets none of them
(`ADMIN_ID` is then `0`). -/
def defaultConfig : Config where
  ADMIN_ID := 0
  DEFAULT_FINE_AMOUNT := 20
  ATTENDANCE_WINDOW_START := (9, 0)
  ATTENDANCE_WINDOW_END := (10, 0)
  REPORT_TIME := (10, 5)

/-- Function `getPhnomPenhDate`: the civil day of the clock reading `now`. -/
def getPhnomPenhDate (now : Int) : Int := localMs now / MS_PER_DAY

/-- Function `isBeforeDeadline(timestamp)`: `timestamp` is a `Date` or `null`;
the deadline is 10:00:00.000 of the same local day. -/
def isBeforeDeadline (timestamp : Option Int) (clock : Int) : Bool :=
  let now := match timestamp with
    | some t => t
    | none => clock
  let deadline := setMillisecond (setSecond (setMinute (setHour now 10) 0) 0) 0
  decide (now < deadline)

/-- Function `isAttendanceWindowOpen`. `schedulerFlag` is what the `try` block
leaves: `some b` when `getAttendanceWindowStatus()` returned `b`, `none` when
the scheduler module could not be loaded. The window bounds keep the
millisecond field of `now`: only `second(0)` is applied. -/
def isAttendanceWindowOpen (cfg : Config) (schedulerFlag : Option Bool) (now : Int) : Bool :=
  let startHour := cfg.ATTENDANCE_WINDOW_START.1
  let startMinute := cfg.ATTENDANCE_WINDOW_START.2
  let endHour := cfg.ATTENDANCE_WINDOW_END.1
  let endMinute := cfg.ATTENDANCE_WINDOW_END.2
  let windowStart := setSecond (setMinute (setHour now startHour) startMinute) 0
  let windowEnd := setSecond (setMinute (setHour now endHour) endMinute) 0
  let timeCheck := decide (windowStart ≤ now) && decide (now < windowEnd)
  match schedulerFlag with
  | some flag => flag && timeCheck
  | none => timeCheck

/-- Start of the configured window, in milliseconds since local midnight. -/
def windowStartMs (cfg : Config) : Int :=
  cfg.ATTENDANCE_WINDOW_START.1 * MS_PER_HOUR + cfg.ATTENDANCE_WINDOW_START.2 * MS_PER_MINUTE

/-- End of the configured window, in milliseconds since local midnight. -/
def windowEndMs (cfg : Config) : Int :=
  cfg.ATTENDANCE_WINDOW_END.1 * MS_PER_HOUR + cfg.ATTENDANCE_WINDOW_END.2 * MS_PER_MINUTE

/-! ## database.js -/

/-- The three texts the ledger writes into `attendance_records.status`. -/
inductive Status where
  | present
  | late
  | absent
deriving DecidableEq, Repr

/-- The text of a status, as JavaScript compares it. -/
def Status.name : Status → String
  | .present => "present"
  | .late => "late"
  | .absent => "absent"

/-- Row of table `users`. -/
structure User where
  id : Nat
  telegram_id : Int
  username : Option String
  full_name : Option String
  is_active : Bool
deriving DecidableEq, Repr

/-- Row of table `attendance_records`; `timestamp` is nullable. -/
structure AttendanceRecord where
  id : Nat
  user_id : Nat
  date : Int
  status : Status
  timestamp : Option Int
deriving DecidableEq, Repr

/-- Row of table `fines`. -/
structure Fine where
  id : Nat
  user_id : Nat
  date : Int
  amount : Amount
deriving DecidableEq, Repr

/-- Table `settings`: `key` is unique, so the table is a partial map from keys
to values; the three keys the program writes are kept, each with the value
whose text the row holds (`parseFloat` of the text written by
`amount.toString()` is `amount` again). -/
structure Settings where
  fine_amount : Option Amount
  window_start : Option (Nat × Nat)
  window_end : Option (Nat × Nat)
deriving DecidableEq, Repr

/-- The store: the four tables and the sequences behind the `SERIAL` keys. -/
structure DB where
  users : List User
  attendance_records : List AttendanceRecord
  fines : List Fine
  settings : Settings
  users_id_seq : Nat
  attendance_records_id_seq : Nat
  fines_id_seq : Nat
deriving DecidableEq, Repr

/-- Query `SELECT * FROM users WHERE telegram_id = $1`. -/
def selectUsersByTelegramId (db : DB) (telegramId : Int) : List User :=
  db.users.filter (fun u => u.telegram_id == telegramId)

/-- Query `SELECT * FROM attendance_records WHERE user_id = $1 AND date = $2`. -/
def selectAttendance (db : DB) (userId : Nat) (date : Int) : List AttendanceRecord :=
  db.attendance_records.filter (fun r => r.user_id == userId && r.date == date)

/-- Query `SELECT * FROM fines WHERE user_id = $1 AND date = $2`. -/
def selectFines (db : DB) (userId : Nat) (date : Int) : List Fine :=
  db.fines.filter (fun f => f.user_id == userId && f.date == date)

/-- Statement `INSERT INTO attendance_records (user_id, date, status, timestamp)`. -/
def insertAttendance (db : DB) (userId : Nat) (date : Int) (status : Status)
    (timestamp : Option Int) : DB :=
  { db with
    attendance_records := db.attendance_records ++
      [{ id := db.attendance_records_id_seq, user_id := userId, date := date,
         status := status, timestamp := timestamp }]
    attendance_records_id_seq := db.attendance_records_id_seq + 1 }

/-- Statement `INSERT INTO fines (user_id, date, amount)`. -/
def insertFine (db : DB) (userId : Nat) (date : Int) (amount : Amount) : DB :=
  { db with
    fines := db.fines ++
      [{ id := db.fines_id_seq, user_id := userId, date := date, amount := amount }]
    fines_id_seq := db.fines_id_seq + 1 }

/-- Statement `DELETE FROM attendance_records WHERE user_id = $1 AND date = $2`. -/
def deleteAttendance (db : DB) (userId : Nat) (date : Int) : DB :=
  { db with
    attendance_records :=
      db.attendance_records.filter (fun r => !(r.user_id == userId && r.date == date)) }

/-- Statement `DELETE FROM fines WHERE user_id = $1 AND date = $2`. -/
def deleteFines (db : DB) (userId : Nat) (date : Int) : DB :=
  { db with fines := db.fines.filter (fun f => !(f.user_id == userId && f.date == date)) }

/-! ## attendance.js -/

/-- JavaScript truthiness of a string that may be `null`. -/
def truthy : Option String → Bool
  | some s => s != ""
  | none => false

/-- SQL `COALESCE(new, old)`. -/
def coalesce (new old : Option String) : Option String :=
  match new with
  | some v => some v
  | none => old

/-- Function `getOrCreateUser`. It runs on a connection of its own, outside
any transaction of the caller. -/
def getOrCreateUser (telegramId : Int) (username fullName : Option String) (db : DB) :
    User × DB :=
  match selectUsersByTelegramId db telegramId with
  | [] =>
    let user : User :=
      { id := db.users_id_seq, telegram_id := telegramId, username := username,
        full_name := fullName, is_active := true }
    (user, { db with users := db.users ++ [user], users_id_seq := db.users_id_seq + 1 })
  | row :: _ =>
    if truthy username || truthy fullName then
      let update := fun (u : User) =>
        if u.telegram_id == telegramId then
          { u with username := coalesce username u.username,
                   full_name := coalesce fullName u.full_name }
        else u
      (update row, { db with users := db.users.map update })
    else
      (row, db)

/-- Function `getFineAmount`: the setting `fine_amount`, else the default. -/
def getFineAmount (cfg : Config) (db : DB) : Amount :=
  match db.settings.fine_amount with
  | some value => value
  | none => cfg.DEFAULT_FINE_AMOUNT

/-- The argument `timestamp` of `recordAttendance`: absent, a number of
milliseconds, or a `Date`. -/
inductive TimestampArg where
  | null
  | number (ms : Int)
  | date (ms : Int)
deriving DecidableEq, Repr

/-- First lines of `recordAttendance`: a falsy argument (`null`, or the
number `0`) is replaced by the clock, a number becomes a `Date`. -/
def resolveTimestamp (timestamp : TimestampArg) (now : Int) : Int :=
  match timestamp with
  | .null => now
  | .number ms => if ms = 0 then now else ms
  | .date ms => ms

/-- The object `{ success, message }` returned by `recordAttendance`. -/
structure Result where
  success : Bool
  message : String
deriving DecidableEq, Repr

def windowClosedResult : Result :=
  { success := false,
    message := "Attendance window is closed. Please send '1' between 09:00 and 10:00 AM." }

def alreadyRecordedResult : Result :=
  { success := false, message := "You have already recorded your attendance for today." }

def onTimeResult : Result :=
  { success := true, message := "Good morning! Attendance recorded." }

def lateResult : Result :=
  { success := true,
    message := "Attendance recorded, but you were late. A fine has been applied." }

/-- Function `recordAttendance`, with the clock reading `now` and the outcome
`schedulerFlag` of reading the scheduler flag. -/
def recordAttendance (cfg : Config) (schedulerFlag : Option Bool) (now : Int)
    (telegramId : Int) (timestamp : TimestampArg) (username fullName : Option String)
    (db : DB) : Result × DB :=
  let timestamp := resolveTimestamp timestamp now
  if !isAttendanceWindowOpen cfg schedulerFlag now then
    (windowClosedResult, db)
  else
    let currentDate := getPhnomPenhDate now
    let created := getOrCreateUser telegramId username fullName db
    let user := created.1
    let db := created.2
    let existing := selectAttendance db user.id currentDate
    if existing.length > 0 then
      (alreadyRecordedResult, db)
    else
      let isOnTime := isBeforeDeadline (some timestamp) now
      let status := if isOnTime then Status.present else Status.late
      let db := insertAttendance db user.id currentDate status (some timestamp)
      if isOnTime then
        (onTimeResult, db)
      else
        (lateResult, insertFine db user.id currentDate (getFineAmount cfg db))

/-- Body of the loop of `processDailyAttendance` for one user row. -/
def sweepUser (currentDate : Int) (fineAmount : Amount) (db : DB) (user : User) : DB :=
  if (selectAttendance db user.id currentDate).length = 0 then
    insertFine (insertAttendance db user.id currentDate Status.absent none)
      user.id currentDate fineAmount
  else
    db

/-- Function `processDailyAttendance`: the fine amount is read once, before
the loop over the active users. -/
def processDailyAttendance (cfg : Config) (now : Int) (db : DB) : DB :=
  let currentDate := getPhnomPenhDate now
  let fineAmount := getFineAmount cfg db
  let users := db.users.filter (fun u => u.is_active)
  users.foldl (sweepUser currentDate fineAmount) db

/-- First lines of `forceMarkAttendance`: a missing `targetDate` is today. -/
def resolveTargetDate (targetDate : Option Int) (now : Int) : Int :=
  match targetDate with
  | some d => d
  | none => getPhnomPenhDate now

/-- Function `forceMarkAttendance`; `status` is the text passed by the caller,
`targetDate` an optional day. A text that is neither `present` nor `absent`
inserts nothing after the two deletions. -/
def forceMarkAttendance (cfg : Config) (now : Int) (telegramId : Int) (status : String)
    (targetDate : Option Int) (db : DB) : Bool × DB :=
  let targetDate := resolveTargetDate targetDate now
  match selectUsersByTelegramId db telegramId with
  | [] => (false, db)
  | user :: _ =>
    let db := deleteAttendance db user.id targetDate
    let db := deleteFines db user.id targetDate
    if status = "present" then
      (true, insertAttendance db user.id targetDate Status.present (some now))
    else if status = "absent" then
      let db := insertAttendance db user.id targetDate Status.absent none
      (true, insertFine db user.id targetDate (getFineAmount cfg db))
    else
      (true, db)

/-! ## bot.js: the settings commands -/

/-- Function `isAdmin`. -/
def isAdmin (cfg : Config) (userId : Int) : Bool := userId == cfg.ADMIN_ID

/-- Handler of `/setfine <amount>`: `amount` is `parseFloat(args[1])`, `none`
when the argument is missing or not a number. -/
def setfine (cfg : Config) (fromId : Int) (amount : Option Amount) (db : DB) : DB :=
  if !isAdmin cfg fromId then db
  else
    match amount with
    | none => db
    | some a =>
      if a < 0 then db
      else { db with settings := { db.settings with fine_amount := some a } }

/-! ## attendance.js with a failing statement -/

/-- The statements of `recordAttendance` that can throw. -/
inductive Statement where
  | begin
  | getOrCreateUser
  | selectExisting
  | insertAttendance
  | getFineAmount
  | insertFine
  | commit
deriving DecidableEq, Repr

/-- How a call of `recordAttendance` ends: it returns a result or it rethrows
the error of the statement that failed. -/
inductive Ending where
  | returned (result : Result)
  | thrown (failed : Statement)
deriving DecidableEq, Repr

/-- Statement `ROLLBACK` in the `catch` block: the rows written on the
connection of the transaction are dropped. What another connection has
committed stays, and so do the values the sequences have reached. -/
def rollback (committed work : DB) : DB :=
  { committed with
    attendance_records_id_seq := work.attendance_records_id_seq
    fines_id_seq := work.fines_id_seq }

/-- Lines 84 to 109 of `recordAttendance`, from the classification to the
`COMMIT`, when the statement `failing`, if any, throws once it is reached.
`committed` is the store as the other connections see it, the inserts are made
on the connection that ran `BEGIN`. A statement that throws writes nothing. -/
def recordAttendanceInserts (failing : Option Statement) (cfg : Config) (now : Int)
    (timestamp : Int) (userId : Nat) (currentDate : Int) (committed : DB) : Ending × DB :=
  if failing = some Statement.insertAttendance then
    (Ending.thrown Statement.insertAttendance, committed)
  else
    let isOnTime := isBeforeDeadline (some timestamp) now
    let status := if isOnTime then Status.present else Status.late
    let work := insertAttendance committed userId currentDate status (some timestamp)
    if isOnTime then
      if failing = some Statement.commit then
        (Ending.thrown Statement.commit, rollback committed work)
      else
        (Ending.returned onTimeResult, work)
    else if failing = some Statement.getFineAmount then
      (Ending.thrown Statement.getFineAmount, rollback committed work)
    else if failing = some Statement.insertFine then
      (Ending.thrown Statement.insertFine, rollback committed work)
    else
      let work := insertFine work userId currentDate (getFineAmount cfg work)
      if failing = some Statement.commit then
        (Ending.thrown Statement.commit, rollback committed work)
      else
        (Ending.returned lateResult, work)

/-- Function `recordAttendance` when the statement `failing`, if any, throws
once it is reached. `getOrCreateUser` works on its own connection, so its
write is committed when it returns. -/
def recordAttendanceFailing (failing : Option Statement) (cfg : Config)
    (schedulerFlag : Option Bool) (now : Int) (telegramId : Int) (timestamp : TimestampArg)
    (username fullName : Option String) (db : DB) : Ending × DB :=
  let timestamp := resolveTimestamp timestamp now
  if !isAttendanceWindowOpen cfg schedulerFlag now then
    (Ending.returned windowClosedResult, db)
  else if failing = some Statement.begin then
    (Ending.thrown Statement.begin, db)
  else if failing = some Statement.getOrCreateUser then
    (Ending.thrown Statement.getOrCreateUser, db)
  else
    let currentDate := getPhnomPenhDate now
    let created := getOrCreateUser telegramId username fullName db
    let user := created.1
    let committed := created.2
    if failing = some Statement.selectExisting then
      (Ending.thrown Statement.selectExisting, committed)
    else
      let existing := selectAttendance committed user.id currentDate
      if existing.length > 0 then
        (Ending.returned alreadyRecordedResult, committed)
      else
        recordAttendanceInserts failing cfg now timestamp user.id currentDate committed

/-! ## reports.js -/

/-- Entry of the list `present` of a daily report. -/
structure PresentItem where
  user : User
  timestamp : Option Int
deriving DecidableEq, Repr

/-- Entry of the list `absent` of a daily report. -/
structure AbsentItem where
  user : User
  fine : Amount
deriving DecidableEq, Repr

/-- The object returned by `generateDailyReport`; `running_fines` is held as
the list of its `(user id, total)` entries. -/
structure DailyReport where
  date : Int
  total_members : Nat
  present : List PresentItem
  absent : List AbsentItem
  running_fines : List (Nat × Amount)
  all_users : List User
deriving DecidableEq, Repr

/-- Condition `record && record.status === 'present'`. -/
def recordIsPresent (record : Option AttendanceRecord) : Bool :=
  match record with
  | some r => r.status == Status.present
  | none => false

/-- Body of the first loop of `generateDailyReport` for one user row: `record`
and `fine` are `rows[0]` of the two queries. -/
def dailyReportStep (db : DB) (reportDate : Int) (fineAmount : Amount)
    (lists : List PresentItem × List AbsentItem) (user : User) :
    List PresentItem × List AbsentItem :=
  let record := (selectAttendance db user.id reportDate).head?
  if recordIsPresent record then
    (lists.1 ++ [{ user := user, timestamp := record.bind (fun r => r.timestamp) }], lists.2)
  else
    let fine := (selectFines db user.id reportDate).head?
    (lists.1,
      lists.2 ++
        [{ user := user,
           fine := match fine with
             | some f => f.amount
             | none => fineAmount }])

/-- Function `generateDailyReport`. -/
def generateDailyReport (cfg : Config) (now : Int) (reportDate : Option Int) (db : DB) :
    DailyReport :=
  let reportDate := match reportDate with
    | some d => d
    | none => getPhnomPenhDate now
  let users := db.users.filter (fun u => u.is_active)
  let fineAmount := getFineAmount cfg db
  let lists := users.foldl (dailyReportStep db reportDate fineAmount) ([], [])
  let runningFines := users.map (fun u =>
    (u.id, ((db.fines.filter (fun f => f.user_id == u.id)).foldl
      (fun sum f => sum + f.amount) 0)))
  { date := reportDate
    total_members := users.length
    present := lists.1
    absent := lists.2
    running_fines := runningFines
    all_users := users }

/-- Gregorian leap years. -/
def isLeapYear (y : Int) : Bool :=
  (y % 4 == 0 && y % 100 != 0) || y % 400 == 0

/-- Length of month `m` (1 to 12) of year `y`. -/
def daysInMonth (y : Int) (m : Int) : Nat :=
  if m = 2 then (if isLeapYear y then 29 else 28)
  else if m = 4 ∨ m = 6 ∨ m = 9 ∨ m = 11 then 30
  else 31

/-- Expression `new Date(year, month, 0).getDate()`: day 0 of the month index
`month` is the last day of the month before it, which is month `month` counted
from 1; a year from 0 to 99 is read as `1900 + year`, a month index outside
`0..11` moves into the neighbouring years. -/
def lastDayOfMonth (year month : Int) : Nat :=
  let y := if 0 ≤ year ∧ year ≤ 99 then 1900 + year else year
  let index := month - 1
  daysInMonth (y + index / 12) (index % 12 + 1)

/-- The day key of the civil date `y-m-d`: days since 1970-01-01 in the
proleptic Gregorian calendar. It stands for the date text `YYYY-MM-DD`. -/
def daysFromCivil (y m d : Int) : Int :=
  let y' := if m ≤ 2 then y - 1 else y
  let era := y' / 400
  let yoe := y' - era * 400
  let mp := if m > 2 then m - 3 else m + 9
  let doy := (153 * mp + 2) / 5 + d - 1
  let doe := yoe * 365 + yoe / 4 - yoe / 100 + doy
  era * 146097 + doe - 719468

/-- Row of the array `records` of `exportMonthlyCSV`. -/
structure MonthlyRecord where
  telegram_id : Int
  username : String
  full_name : String
  totalPresent : Nat
  totalAbsent : Int
  totalFines : Amount
deriving DecidableEq, Repr

/-- Body of the loop of `exportMonthlyCSV` for one user row. The set
`presentDates` is keyed by the ISO date text of the record's day; in a process
zone without daylight saving (UTC, Asia/Phnom_Penh) different days have
different texts, so its size is the number of different days among the
`present` rows. -/
def monthlyRecord (year month : Int) (db : DB) (user : User) : MonthlyRecord :=
  let startDate := daysFromCivil year month 1
  let lastDay := lastDayOfMonth year month
  let endDate := daysFromCivil year month lastDay
  let attendance := db.attendance_records.filter
    (fun r => r.user_id == user.id && decide (startDate ≤ r.date) && decide (r.date ≤ endDate))
  let fines := db.fines.filter
    (fun f => f.user_id == user.id && decide (startDate ≤ f.date) && decide (f.date ≤ endDate))
  let presentDates :=
    ((attendance.filter (fun r => r.status == Status.present)).map (fun r => r.date)).dedup
  let totalPresent := presentDates.length
  let totalDays := lastDay
  let totalAbsent : Int := (totalDays : Int) - (totalPresent : Int)
  let totalFines := fines.foldl (fun sum f => sum + f.amount) 0
  { telegram_id := user.telegram_id
    username := user.username.getD ""
    full_name := user.full_name.getD ""
    totalPresent := totalPresent
    totalAbsent := totalAbsent
    totalFines := totalFines }

/-- Function `exportMonthlyCSV`: the rows it hands to the CSV writer. -/
def exportMonthlyCSV (year month : Int) (db : DB) : List MonthlyRecord :=
  (db.users.filter (fun u => u.is_active)).map (monthlyRecord year month db)

/-- Handler of `/set-window <HH:MM> <HH:MM>`: an argument is `none` when it
is missing or does not match `^(\d{2}):(\d{2})$`, else the pair of its two
numbers. The handler writes the two settings rows and nothing else. -/
def setWindow (cfg : Config) (fromId : Int) (start finish : Option (Nat × Nat)) (db : DB) :
    DB :=
  if !isAdmin cfg fromId then db
  else
    match start, finish with
    | some a, some b =>
      { db with settings := { db.settings with window_start := some a, window_end := some b } }
    | _, _ => db

/-! ## attendance.js, two calls interleaved -/

/-- What `recordAttendance` holds after its existence check found no record:
the member, the day and the check-in instant of the insert to come. -/
structure PendingCheckIn where
  userId : Nat
  currentDate : Int
  timestamp : Int
deriving DecidableEq, Repr

/-- Lines 52 to 82 of `recordAttendance`, up to and including the existence
check: either the early result, or the insert that is to follow. -/
def recordAttendanceChecks (cfg : Config) (schedulerFlag : Option Bool) (now : Int)
    (telegramId : Int) (timestamp : TimestampArg) (username fullName : Option String)
    (db : DB) : (Result ⊕ PendingCheckIn) × DB :=
  let timestamp := resolveTimestamp timestamp now
  if !isAttendanceWindowOpen cfg schedulerFlag now then
    (Sum.inl windowClosedResult, db)
  else
    let currentDate := getPhnomPenhDate now
    let created := getOrCreateUser telegramId username fullName db
    let user := created.1
    let db := created.2
    let existing := selectAttendance db user.id currentDate
    if existing.length > 0 then
      (Sum.inl alreadyRecordedResult, db)
    else
      (Sum.inr { userId := user.id, currentDate := currentDate, timestamp := timestamp }, db)

/-- The rest of a call after its checks, run on the store as it is by then:
lines 84 to 109 with no failing statement. -/
def recordAttendanceFinish (cfg : Config) (now : Int) (checked : (Result ⊕ PendingCheckIn))
    (db : DB) : Ending × DB :=
  match checked with
  | Sum.inl result => (Ending.returned result, db)
  | Sum.inr p => recordAttendanceInserts none cfg now p.timestamp p.userId p.currentDate db

/-- Two calls of `recordAttendance` for the same member, on two connections,
whose `await` points interleave so that both existence checks run before
either insert: checks of the first, checks of the second, inserts and commit
of the first, inserts and commit of the second. The table has no uniqueness
constraint, so no insert is refused. -/
def interleavedCheckIns (cfg : Config) (schedulerFlag : Option Bool) (now : Int)
    (telegramId : Int) (first second : TimestampArg) (username fullName : Option String)
    (db : DB) : (Ending × Ending) × DB :=
  let a := recordAttendanceChecks cfg schedulerFlag now telegramId first username fullName db
  let b := recordAttendanceChecks cfg schedulerFlag now telegramId second username fullName a.2
  let a' := recordAttendanceFinish cfg now a.1 b.2
  let b' := recordAttendanceFinish cfg now b.1 a'.2
  ((a'.1, b'.1), b'.2)

/-! ## Predicates of the specification -/

/-- At most one attendance record per (member, day). -/
def UniqueAttendance (db : DB) : Prop :=
  ∀ (userId : Nat) (date : Int), (selectAttendance db userId date).length ≤ 1

/-- The `users.id` under which `recordAttendance` files a check-in of
`telegramId`: the id of the first row found, else the id the new row takes. -/
def memberId (db : DB) (telegramId : Int) : Nat :=
  match selectUsersByTelegramId db telegramId with
  | [] => db.users_id_seq
  | row :: _ => row.id

/-- All attendance records of one member. -/
def attendanceOf (db : DB) (userId : Nat) : List AttendanceRecord :=
  db.attendance_records.filter (fun r => r.user_id == userId)

/-- All fines of one member. -/
def finesOf (db : DB) (userId : Nat) : List Fine :=
  db.fines.filter (fun f => f.user_id == userId)

/-- The status `recordAttendance` gives a check-in at `instant`. -/
def classify (instant : Int) : Status :=
  if timeOfDay instant < 10 * MS_PER_HOUR then Status.present else Status.late

/-- Fine and record agree: every (member, day) has at most one fine, and has a
fine exactly when it has an attendance record of status late or absent. -/
def FineConsistent (db : DB) : Prop :=
  ∀ (userId : Nat) (date : Int),
    (selectFines db userId date).length ≤ 1
      ∧ (selectFines db userId date ≠ []
          ↔ ∃ r ∈ selectAttendance db userId date,
              r.status = Status.late ∨ r.status = Status.absent)

/-- What a call that throws leaves behind, against the store `db` it started
from: the attendance records, the fines and the settings of `db`, and either
the members of `db` or the members `users` after the member upsert. -/
def KeptOnThrow (db : DB) (users : List User) (e : Ending × DB) : Prop :=
  ∀ s : Statement, e.1 = Ending.thrown s →
    e.2.attendance_records = db.attendance_records
      ∧ e.2.fines = db.fines
      ∧ e.2.settings = db.settings
      ∧ (e.2.users = db.users ∨ e.2.users = users)

/-- In the words of the specification: the days of the month on which the
member has a `present` record. -/
def presentDaysOfMonth (db : DB) (userId : Nat) (year month : Int) : Finset Int :=
  (Finset.Icc (daysFromCivil year month 1)
      (daysFromCivil year month (lastDayOfMonth year month))).filter
    (fun d => ∃ r ∈ db.attendance_records,
      r.user_id = userId ∧ r.date = d ∧ r.status = Status.present)

/-- Whether the daily report of `date` finds a `present` record for the
member: the test made on `rows[0]` of the member's records of that day. -/
def reportedPresent (db : DB) (date : Int) (user : User) : Bool :=
  recordIsPresent (selectAttendance db user.id date).head?

/-- The statement `s` is reached by the call, so a failure of `s` does occur:
the window is open, and for the inserts and the commit the member has no
record for today, and for the two statements of the fine the check-in is late
as well. -/
def statementReached (s : Statement) (cfg : Config) (schedulerFlag : Option Bool)
    (now : Int) (telegramId : Int) (timestamp : TimestampArg) (db : DB) : Prop :=
  isAttendanceWindowOpen cfg schedulerFlag now = true
    ∧ (s = Statement.begin ∨ s = Statement.getOrCreateUser ∨ s = Statement.selectExisting
        ∨ (selectAttendance db (memberId db telegramId) (getPhnomPenhDate now) = []
            ∧ (s = Statement.insertAttendance ∨ s = Statement.commit
                ∨ classify (resolveTimestamp timestamp now) = Status.late)))

/-! ## Sample data -/

/-- Day 20000 since the epoch, 09:30:00.000 in Phnom Penh. -/
def sampleNow : Int := 20000 * 86400000 + 9000000

/-- Day 20000 since the epoch, 10:30:00.000 in Phnom Penh. -/
def sampleLateNow : Int := 20000 * 86400000 + 12600000

/-- A configuration whose window runs from 09:00 to 11:00. -/
def wideConfig : Config :=
  { defaultConfig with ATTENDANCE_WINDOW_END := (11, 0) }

/-- Three members: the first has checked in on day 20000, the second has not,
the third is inactive. -/
def sampleDb : DB where
  users :=
    [{ id := 1, telegram_id := 101, username := some "alice", full_name := none,
       is_active := true },
     { id := 2, telegram_id := 102, username := some "bob", full_name := some "Bob B",
       is_active := true },
     { id := 3, telegram_id := 103, username := none, full_name := some "Carol",
       is_active := false }]
  attendance_records :=
    [{ id := 1, user_id := 1, date := 20000, status := Status.present,
       timestamp := some (20000 * 86400000 + 7500000) }]
  fines := []
  settings := { fine_amount := none, window_start := none, window_end := none }
  users_id_seq := 4
  attendance_records_id_seq := 2
  fines_id_seq := 1

/-- November 2024, a month of 30 days that starts on day 20028: member 1 is
present on its first ten days, with two rows on the third, and late on the
eleventh. -/
def novemberDb : DB where
  users :=
    [{ id := 1, telegram_id := 101, username := some "alice", full_name := none,
       is_active := true }]
  attendance_records :=
    (List.range 10).map (fun i =>
      { id := i + 1, user_id := 1, date := 20028 + (i : Int), status := Status.present,
        timestamp := none })
    ++ [{ id := 11, user_id := 1, date := 20030, status := Status.present, timestamp := none },
        { id := 12, user_id := 1, date := 20038, status := Status.late, timestamp := none }]
  fines := [{ id := 1, user_id := 1, date := 20038, amount := 20 }]
  settings := { fine_amount := none, window_start := none, window_end := none }
  users_id_seq := 2
  attendance_records_id_seq := 13
  fines_id_seq := 2

/-- Day 20000 since the epoch, 08:30:00.000 in Phnom Penh. -/
def sampleEarlyNow : Int := 20000 * 86400000 + 5400000

/-- A configuration whose window runs from 09:00 to 09:30, ending before the
10:00 deadline. -/
def earlyConfig : Config :=
  { defaultConfig with ATTENDANCE_WINDOW_END := (9, 30) }

/-- Day 20000 since the epoch, 09:15:00.000 in Phnom Penh. -/
def sampleQuarterNow : Int := 20000 * 86400000 + 8100000

/-- Day 19999 since the epoch, 15:00:00.000 in Phnom Penh: the instant of a
message sent the afternoon before. -/
def sampleYesterdayAfternoon : Int := 19999 * 86400000 + 28800000

/-! ## Clock lemmas -/

theorem deadline_eq (t : Int) :
    setMillisecond (setSecond (setMinute (setHour t 10) 0) 0) 0
      = t - timeOfDay t + 10 * MS_PER_HOUR := by
  simp only [setMillisecond, setSecond, setMinute, setHour, millisecondOf, secondOf, minuteOf,
    hourOf, timeOfDay, localMs, UTC_OFFSET_MS, MS_PER_SECOND, MS_PER_MINUTE, MS_PER_HOUR,
    MS_PER_DAY]
  omega

theorem isBeforeDeadline_iff (t clock : Int) :
    isBeforeDeadline (some t) clock = true ↔ timeOfDay t < 10 * MS_PER_HOUR := by
  simp only [isBeforeDeadline, decide_eq_true_eq, deadline_eq]
  constructor <;> intro h <;> omega

theorem windowBound_eq (t : Int) (h m : Nat) :
    setSecond (setMinute (setHour t h) m) 0
      = t - timeOfDay t + (h * MS_PER_HOUR + m * MS_PER_MINUTE) + millisecondOf t := by
  simp only [setSecond, setMinute, setHour, millisecondOf, secondOf, minuteOf,
    hourOf, timeOfDay, localMs, UTC_OFFSET_MS, MS_PER_SECOND, MS_PER_MINUTE, MS_PER_HOUR,
    MS_PER_DAY]
  omega

theorem timeCheck_iff (cfg : Config) (now : Int) :
    isAttendanceWindowOpen cfg none now = true
      ↔ windowStartMs cfg ≤ timeOfDay now ∧ timeOfDay now < windowEndMs cfg := by
  simp only [isAttendanceWindowOpen, Bool.and_eq_true, decide_eq_true_eq, windowBound_eq,
    windowStartMs, windowEndMs]
  simp only [millisecondOf, timeOfDay, localMs, UTC_OFFSET_MS, MS_PER_SECOND, MS_PER_MINUTE,
    MS_PER_HOUR, MS_PER_DAY]
  constructor <;> intro h <;> constructor <;> omega

/-! ## The store statements -/

theorem selectAttendance_insertAttendance (db : DB) (u : Nat) (d : Int) (st : Status)
    (ts : Option Int) (u' : Nat) (d' : Int) :
    selectAttendance (insertAttendance db u d st ts) u' d'
      = selectAttendance db u' d' ++
          (if u = u' ∧ d = d' then
            [{ id := db.attendance_records_id_seq, user_id := u, date := d, status := st,
               timestamp := ts }]
           else []) := by
  by_cases h : u = u' ∧ d = d'
  · simp [selectAttendance, insertAttendance, List.filter_append, List.filter_cons, h]
  · have h' : ¬ (u = u' ∧ d = d') := h
    simp only [selectAttendance, insertAttendance, List.filter_append, List.filter_cons,
      List.filter_nil, if_neg h]
    simp [h']

theorem selectAttendance_insertFine (db : DB) (u : Nat) (d : Int) (a : Amount)
    (u' : Nat) (d' : Int) :
    selectAttendance (insertFine db u d a) u' d' = selectAttendance db u' d' := rfl

theorem selectAttendance_deleteFines (db : DB) (u : Nat) (d : Int) (u' : Nat) (d' : Int) :
    selectAttendance (deleteFines db u d) u' d' = selectAttendance db u' d' := rfl

theorem selectAttendance_deleteAttendance (db : DB) (u : Nat) (d : Int) (u' : Nat) (d' : Int) :
    selectAttendance (deleteAttendance db u d) u' d'
      = if u' = u ∧ d' = d then [] else selectAttendance db u' d' := by
  simp only [selectAttendance, deleteAttendance, List.filter_filter]
  by_cases h : u' = u ∧ d' = d
  · rw [if_pos h]
    obtain ⟨rfl, rfl⟩ := h
    apply List.filter_eq_nil_iff.mpr
    intro r _
    simp
  · rw [if_neg h]
    apply List.filter_congr
    intro r _
    by_cases h1 : r.user_id = u' <;> by_cases h2 : r.date = d' <;> simp [h1, h2]
    by_contra hc
    exact h ⟨by tauto, by tauto⟩

theorem getOrCreateUser_attendance (tid : Int) (un fn : Option String) (db : DB) :
    (getOrCreateUser tid un fn db).2.attendance_records = db.attendance_records := by
  unfold getOrCreateUser
  split
  · rfl
  · split <;> rfl

theorem getOrCreateUser_fines (tid : Int) (un fn : Option String) (db : DB) :
    (getOrCreateUser tid un fn db).2.fines = db.fines := by
  unfold getOrCreateUser
  split
  · rfl
  · split <;> rfl

theorem getOrCreateUser_settings (tid : Int) (un fn : Option String) (db : DB) :
    (getOrCreateUser tid un fn db).2.settings = db.settings := by
  unfold getOrCreateUser
  split
  · rfl
  · split <;> rfl

theorem getOrCreateUser_attendance_seq (tid : Int) (un fn : Option String) (db : DB) :
    (getOrCreateUser tid un fn db).2.attendance_records_id_seq
      = db.attendance_records_id_seq := by
  unfold getOrCreateUser
  split
  · rfl
  · split <;> rfl

theorem getOrCreateUser_fines_seq (tid : Int) (un fn : Option String) (db : DB) :
    (getOrCreateUser tid un fn db).2.fines_id_seq = db.fines_id_seq := by
  unfold getOrCreateUser
  split
  · rfl
  · split <;> rfl

theorem getOrCreateUser_select (tid : Int) (un fn : Option String) (db : DB) (u : Nat)
    (d : Int) :
    selectAttendance (getOrCreateUser tid un fn db).2 u d = selectAttendance db u d := by
  simp only [selectAttendance, getOrCreateUser_attendance]

theorem getOrCreateUser_unique (tid : Int) (un fn : Option String) (db : DB)
    (h : UniqueAttendance db) : UniqueAttendance (getOrCreateUser tid un fn db).2 := by
  intro u d
  rw [getOrCreateUser_select]
  exact h u d

/-- Inserting a record for a pair that has none keeps the records unique. -/
theorem insertAttendance_unique (db : DB) (u : Nat) (d : Int) (st : Status)
    (ts : Option Int) (h : UniqueAttendance db) (hnone : (selectAttendance db u d).length = 0) :
    UniqueAttendance (insertAttendance db u d st ts) := by
  intro u' d'
  rw [selectAttendance_insertAttendance]
  by_cases hk : u = u' ∧ d = d'
  · obtain ⟨rfl, rfl⟩ := hk
    simp [hnone]
  · simp only [if_neg hk, List.append_nil]
    exact h u' d'

theorem insertFine_unique (db : DB) (u : Nat) (d : Int) (a : Amount)
    (h : UniqueAttendance db) : UniqueAttendance (insertFine db u d a) := h

theorem sweepUser_unique (date : Int) (a : Amount) (db : DB) (user : User)
    (h : UniqueAttendance db) : UniqueAttendance (sweepUser date a db user) := by
  unfold sweepUser
  split
  · next hnone =>
    exact insertFine_unique _ _ _ _ (insertAttendance_unique _ _ _ _ _ h hnone)
  · exact h

theorem foldl_sweepUser_unique (date : Int) (a : Amount) (users : List User) (db : DB)
    (h : UniqueAttendance db) : UniqueAttendance (users.foldl (sweepUser date a) db) := by
  induction users generalizing db with
  | nil => exact h
  | cons u us ih => exact ih _ (sweepUser_unique date a db u h)

theorem deleteAttendance_unique (db : DB) (u : Nat) (d : Int) (h : UniqueAttendance db) :
    UniqueAttendance (deleteAttendance db u d) := by
  intro u' d'
  rw [selectAttendance_deleteAttendance]
  split
  · simp
  · exact h u' d'

theorem recordAttendance_unique (cfg : Config) (flag : Option Bool) (now tid : Int)
    (ts : TimestampArg) (un fn : Option String) (db : DB) (h : UniqueAttendance db) :
    UniqueAttendance (recordAttendance cfg flag now tid ts un fn db).2 := by
  unfold recordAttendance
  simp only []
  split
  · exact h
  · have h1 := getOrCreateUser_unique tid un fn db h
    split
    · exact h1
    · next hex =>
      have hnone : (selectAttendance (getOrCreateUser tid un fn db).2
          (getOrCreateUser tid un fn db).1.id (getPhnomPenhDate now)).length = 0 := by omega
      split
      · exact insertAttendance_unique _ _ _ _ _ h1 hnone
      · exact insertFine_unique _ _ _ _ (insertAttendance_unique _ _ _ _ _ h1 hnone)

theorem forceMarkAttendance_unique (cfg : Config) (now tid : Int) (status : String)
    (target : Option Int) (db : DB) (h : UniqueAttendance db) :
    UniqueAttendance (forceMarkAttendance cfg now tid status target db).2 := by
  unfold forceMarkAttendance
  simp only []
  split
  · exact h
  · next user rest hsel =>
    have hdel : ∀ d, UniqueAttendance (deleteFines (deleteAttendance db user.id d) user.id d) :=
      fun d => deleteAttendance_unique db user.id d h
    have hnone : ∀ d, (selectAttendance (deleteFines (deleteAttendance db user.id d) user.id d)
        user.id d).length = 0 := by
      intro d
      rw [selectAttendance_deleteFines, selectAttendance_deleteAttendance]
      simp
    split
    · exact insertAttendance_unique _ _ _ _ _ (hdel _) (hnone _)
    · split
      · exact insertFine_unique _ _ _ _ (insertAttendance_unique _ _ _ _ _ (hdel _) (hnone _))
      · exact hdel _

/-! ## Claims -/

/-- C1: uniqueness is an invariant of the ledger. If the store holds at most one
attendance record per (member, day), it still does after one call of
`recordAttendance`, `processDailyAttendance` or `forceMarkAttendance`, for every
argument, clock reading and window state. -/
theorem uniqueness_invariant (cfg : Config) (flag : Option Bool) (now tid : Int)
    (ts : TimestampArg) (un fn : Option String) (status : String) (target : Option Int)
    (db : DB) (h : UniqueAttendance db) :
    UniqueAttendance (recordAttendance cfg flag now tid ts un fn db).2
      ∧ UniqueAttendance (processDailyAttendance cfg now db)
      ∧ UniqueAttendance (forceMarkAttendance cfg now tid status target db).2 :=
  ⟨recordAttendance_unique cfg flag now tid ts un fn db h,
   foldl_sweepUser_unique _ _ _ db h,
   forceMarkAttendance_unique cfg now tid status target db h⟩

theorem sampleDb_unique : UniqueAttendance sampleDb := by
  intro u d
  exact le_trans (List.length_filter_le _ _) (by decide)

theorem uniqueness_invariant_witness :
    UniqueAttendance sampleDb
      ∧ UniqueAttendance
          (recordAttendance defaultConfig (some true) sampleNow 102 TimestampArg.null none none
            sampleDb).2
      ∧ UniqueAttendance (processDailyAttendance defaultConfig sampleNow sampleDb)
      ∧ UniqueAttendance
          (forceMarkAttendance defaultConfig sampleNow 101 "absent" none sampleDb).2 :=
  ⟨sampleDb_unique,
   uniqueness_invariant defaultConfig (some true) sampleNow 102 TimestampArg.null none none
     "absent" none sampleDb sampleDb_unique |>.1,
   uniqueness_invariant defaultConfig (some true) sampleNow 101 TimestampArg.null none none
     "absent" none sampleDb sampleDb_unique |>.2⟩

theorem getOrCreateUser_id (tid : Int) (un fn : Option String) (db : DB) :
    (getOrCreateUser tid un fn db).1.id = memberId db tid := by
  unfold getOrCreateUser memberId
  split
  · rfl
  · next row rest hsel =>
    split
    · simp only []
      split <;> rfl
    · rfl

theorem isAttendanceWindowOpen_iff (cfg : Config) (flag : Option Bool) (now : Int) :
    isAttendanceWindowOpen cfg flag now = true
      ↔ flag ≠ some false ∧ windowStartMs cfg ≤ timeOfDay now
          ∧ timeOfDay now < windowEndMs cfg := by
  cases flag with
  | none => simpa using timeCheck_iff cfg now
  | some b =>
    have hb : isAttendanceWindowOpen cfg (some b) now
        = (b && isAttendanceWindowOpen cfg none now) := rfl
    rw [hb, Bool.and_eq_true, timeCheck_iff]
    cases b <;> simp

theorem classify_eq (instant clock : Int) :
    (if isBeforeDeadline (some instant) clock then Status.present else Status.late)
      = classify instant := by
  unfold classify
  by_cases h : timeOfDay instant < 10 * MS_PER_HOUR
  · rw [if_pos h, if_pos ((isBeforeDeadline_iff instant clock).mpr h)]
  · rw [if_neg h, if_neg (fun hc => h ((isBeforeDeadline_iff instant clock).mp hc))]

/-- What an accepted check-in does: the window is open and the member has no
record for today. -/
theorem recordAttendance_accept (cfg : Config) (flag : Option Bool) (now tid : Int)
    (ts : TimestampArg) (un fn : Option String) (db : DB)
    (hopen : isAttendanceWindowOpen cfg flag now = true)
    (hnone : selectAttendance db (memberId db tid) (getPhnomPenhDate now) = []) :
    recordAttendance cfg flag now tid ts un fn db
      = if isBeforeDeadline (some (resolveTimestamp ts now)) now then
          (onTimeResult,
            insertAttendance (getOrCreateUser tid un fn db).2 (memberId db tid)
              (getPhnomPenhDate now) Status.present (some (resolveTimestamp ts now)))
        else
          (lateResult,
            insertFine
              (insertAttendance (getOrCreateUser tid un fn db).2 (memberId db tid)
                (getPhnomPenhDate now) Status.late (some (resolveTimestamp ts now)))
              (memberId db tid) (getPhnomPenhDate now) (getFineAmount cfg db)) := by
  have hsel : selectAttendance (getOrCreateUser tid un fn db).2
      (memberId db tid) (getPhnomPenhDate now) = [] := by
    rw [getOrCreateUser_select, hnone]
  have hfine : ∀ (x : DB) (u : Nat) (d : Int) (st : Status) (t : Option Int),
      getFineAmount cfg (insertAttendance (getOrCreateUser tid un fn db).2 u d st t)
        = getFineAmount cfg db := by
    intro x u d st t
    simp only [getFineAmount, insertAttendance, getOrCreateUser_settings]
  unfold recordAttendance
  simp only [getOrCreateUser_id, hopen, hsel, Bool.not_true, Bool.false_eq_true, if_false,
    List.length_nil, gt_iff_lt, lt_self_iff_false]
  split
  · rfl
  · rw [hfine db]

/-- The already-recorded path: the window is open and the member has a record
for today. -/
theorem recordAttendance_reject (cfg : Config) (flag : Option Bool) (now tid : Int)
    (ts : TimestampArg) (un fn : Option String) (db : DB)
    (hopen : isAttendanceWindowOpen cfg flag now = true)
    (hsome : selectAttendance db (memberId db tid) (getPhnomPenhDate now) ≠ []) :
    recordAttendance cfg flag now tid ts un fn db
      = (alreadyRecordedResult, (getOrCreateUser tid un fn db).2) := by
  have hsel : 0 < (selectAttendance (getOrCreateUser tid un fn db).2
      (memberId db tid) (getPhnomPenhDate now)).length := by
    rw [getOrCreateUser_select]
    exact List.length_pos.mpr hsome
  unfold recordAttendance
  simp only [getOrCreateUser_id, hopen, Bool.not_true, Bool.false_eq_true, if_false, gt_iff_lt,
    hsel, if_true]

/-- C2: `recordAttendance` is idempotent per day. For a member who already has
an attendance record for today, a call made while the window is open returns the
already-recorded failure and leaves the attendance records and the fines exactly
as they were, whatever the new check-in instant is. -/
theorem recordAttendance_idempotent (cfg : Config) (flag : Option Bool) (now tid : Int)
    (ts : TimestampArg) (un fn : Option String) (db : DB) (member : User)
    (hopen : isAttendanceWindowOpen cfg flag now = true)
    (hmember : (selectUsersByTelegramId db tid).head? = some member)
    (hrecord : selectAttendance db member.id (getPhnomPenhDate now) ≠ []) :
    (recordAttendance cfg flag now tid ts un fn db).1 = alreadyRecordedResult
      ∧ (recordAttendance cfg flag now tid ts un fn db).1.success = false
      ∧ (recordAttendance cfg flag now tid ts un fn db).2.attendance_records
          = db.attendance_records
      ∧ (recordAttendance cfg flag now tid ts un fn db).2.fines = db.fines := by
  have hid : memberId db tid = member.id := by
    unfold memberId
    cases hs : selectUsersByTelegramId db tid with
    | nil => rw [hs] at hmember; simp at hmember
    | cons row rest =>
      rw [hs] at hmember
      simp only [List.head?_cons, Option.some.injEq] at hmember
      rw [hmember]
  rw [recordAttendance_reject cfg flag now tid ts un fn db hopen (by rw [hid]; exact hrecord)]
  exact ⟨rfl, rfl, getOrCreateUser_attendance tid un fn db, getOrCreateUser_fines tid un fn db⟩

theorem recordAttendance_idempotent_witness :
    (recordAttendance defaultConfig (some true) sampleNow 101
        (TimestampArg.number (20000 * 86400000 + 9100000)) (some "alice2") none sampleDb).1
        = alreadyRecordedResult
      ∧ (recordAttendance defaultConfig (some true) sampleNow 101
        (TimestampArg.number (20000 * 86400000 + 9100000)) (some "alice2") none sampleDb).1.success
        = false
      ∧ (recordAttendance defaultConfig (some true) sampleNow 101
        (TimestampArg.number (20000 * 86400000 + 9100000)) (some "alice2") none
        sampleDb).2.attendance_records = sampleDb.attendance_records
      ∧ (recordAttendance defaultConfig (some true) sampleNow 101
        (TimestampArg.number (20000 * 86400000 + 9100000)) (some "alice2") none
        sampleDb).2.fines = sampleDb.fines :=
  recordAttendance_idempotent defaultConfig (some true) sampleNow 101
    (TimestampArg.number (20000 * 86400000 + 9100000)) (some "alice2") none sampleDb
    { id := 1, telegram_id := 101, username := some "alice", full_name := none,
      is_active := true }
    (by decide) (by decide) (by decide)

theorem timeOfDay_lt_iff_classify (instant : Int) :
    (classify instant = Status.present ↔ timeOfDay instant < 10 * MS_PER_HOUR)
      ∧ (classify instant = Status.late ↔ 10 * MS_PER_HOUR ≤ timeOfDay instant) := by
  unfold classify
  by_cases h : timeOfDay instant < 10 * MS_PER_HOUR
  · simp [h]
  · simp only [if_neg h, reduceCtorEq, false_iff, true_iff]
    exact ⟨h, not_lt.mp h⟩

/-- C3: classification boundary. A check-in accepted while the window is open
for a member with no record today is recorded with the instant it carries,
as `present` exactly when that instant lies strictly before 10:00:00.000 of its
local day and as `late` otherwise; one millisecond before 10:00 is present,
10:00 sharp is late. A number argument other than `0` is that instant. -/
theorem classification_boundary (cfg : Config) (flag : Option Bool) (now tid : Int)
    (ts : TimestampArg) (un fn : Option String) (db : DB)
    (hopen : isAttendanceWindowOpen cfg flag now = true)
    (hnone : selectAttendance db (memberId db tid) (getPhnomPenhDate now) = []) :
    (recordAttendance cfg flag now tid ts un fn db).1.success = true
      ∧ selectAttendance (recordAttendance cfg flag now tid ts un fn db).2 (memberId db tid)
          (getPhnomPenhDate now)
          = [{ id := db.attendance_records_id_seq, user_id := memberId db tid,
               date := getPhnomPenhDate now, status := classify (resolveTimestamp ts now),
               timestamp := some (resolveTimestamp ts now) }]
      ∧ (classify (resolveTimestamp ts now) = Status.present
          ↔ timeOfDay (resolveTimestamp ts now) < 10 * MS_PER_HOUR)
      ∧ (classify (resolveTimestamp ts now) = Status.late
          ↔ 10 * MS_PER_HOUR ≤ timeOfDay (resolveTimestamp ts now))
      ∧ (timeOfDay (resolveTimestamp ts now) = 10 * MS_PER_HOUR - 1
          → classify (resolveTimestamp ts now) = Status.present)
      ∧ (timeOfDay (resolveTimestamp ts now) = 10 * MS_PER_HOUR
          → classify (resolveTimestamp ts now) = Status.late)
      ∧ (∀ ms : Int, ms ≠ 0 → resolveTimestamp (TimestampArg.number ms) now = ms)
      ∧ (∀ ms : Int, resolveTimestamp (TimestampArg.date ms) now = ms) := by
  have hcl := timeOfDay_lt_iff_classify (resolveTimestamp ts now)
  refine ⟨?_, ?_, hcl.1, hcl.2, ?_, ?_, ?_, ?_⟩
  · rw [recordAttendance_accept cfg flag now tid ts un fn db hopen hnone]
    split <;> rfl
  · rw [recordAttendance_accept cfg flag now tid ts un fn db hopen hnone, ← classify_eq _ now]
    split
    · rw [selectAttendance_insertAttendance, getOrCreateUser_select, hnone,
        getOrCreateUser_attendance_seq]
      simp
    · rw [selectAttendance_insertFine, selectAttendance_insertAttendance,
        getOrCreateUser_select, hnone, getOrCreateUser_attendance_seq]
      simp
  · intro h
    exact hcl.1.mpr (by rw [h]; simp [MS_PER_HOUR])
  · intro h
    exact hcl.2.mpr (le_of_eq h.symm)
  · intro ms hms
    simp [resolveTimestamp, hms]
  · intro ms
    rfl

theorem classification_boundary_witness :
    selectAttendance
        (recordAttendance defaultConfig (some true) sampleNow 102
          (TimestampArg.number (20000 * 86400000 + 10799999)) none none sampleDb).2 2 20000
        = [{ id := 2, user_id := 2, date := 20000, status := Status.present,
             timestamp := some (20000 * 86400000 + 10799999) }]
      ∧ selectAttendance
        (recordAttendance wideConfig (some true) sampleLateNow 102
          (TimestampArg.number (20000 * 86400000 + 10800000)) none none sampleDb).2 2 20000
        = [{ id := 2, user_id := 2, date := 20000, status := Status.late,
             timestamp := some (20000 * 86400000 + 10800000) }] :=
  ⟨(classification_boundary defaultConfig (some true) sampleNow 102
      (TimestampArg.number (20000 * 86400000 + 10799999)) none none sampleDb
      (by decide) (by decide)).2.1,
   (classification_boundary wideConfig (some true) sampleLateNow 102
      (TimestampArg.number (20000 * 86400000 + 10800000)) none none sampleDb
      (by decide) (by decide)).2.1⟩

theorem result_ne_windowClosed :
    alreadyRecordedResult ≠ windowClosedResult ∧ onTimeResult ≠ windowClosedResult
      ∧ lateResult ≠ windowClosedResult := by
  decide

theorem recordAttendance_closed (cfg : Config) (flag : Option Bool) (now tid : Int)
    (ts : TimestampArg) (un fn : Option String) (db : DB)
    (hclosed : isAttendanceWindowOpen cfg flag now = false) :
    recordAttendance cfg flag now tid ts un fn db = (windowClosedResult, db) := by
  unfold recordAttendance
  simp only [hclosed, Bool.not_false, if_true]

theorem recordAttendance_open_ne (cfg : Config) (flag : Option Bool) (now tid : Int)
    (ts : TimestampArg) (un fn : Option String) (db : DB)
    (hopen : isAttendanceWindowOpen cfg flag now = true) :
    (recordAttendance cfg flag now tid ts un fn db).1 ≠ windowClosedResult := by
  by_cases hsel : selectAttendance db (memberId db tid) (getPhnomPenhDate now) = []
  · rw [recordAttendance_accept cfg flag now tid ts un fn db hopen hsel]
    split
    · exact result_ne_windowClosed.2.1
    · exact result_ne_windowClosed.2.2
  · rw [recordAttendance_reject cfg flag now tid ts un fn db hopen hsel]
    exact result_ne_windowClosed.1

/-- C4: window gating. Whenever the scheduler flag is false, or the clock is
before the window start or at or after the window end, `recordAttendance`
returns the window-closed outcome for every member and every check-in instant and
leaves the whole store as it was. A check-in is accepted only with the clock
in `[start, end)` and the flag not false, and with the flag read as `b` exactly
when `b` is true and the clock is in `[start, end)`. -/
theorem window_gating (cfg : Config) (flag : Option Bool) (now tid : Int)
    (ts : TimestampArg) (un fn : Option String) (db : DB) :
    ((flag = some false ∨ timeOfDay now < windowStartMs cfg
        ∨ windowEndMs cfg ≤ timeOfDay now)
        → recordAttendance cfg flag now tid ts un fn db = (windowClosedResult, db))
      ∧ ((recordAttendance cfg flag now tid ts un fn db).1 ≠ windowClosedResult
        → flag ≠ some false ∧ windowStartMs cfg ≤ timeOfDay now
            ∧ timeOfDay now < windowEndMs cfg)
      ∧ (∀ b : Bool, flag = some b →
          ((recordAttendance cfg flag now tid ts un fn db).1 ≠ windowClosedResult
            ↔ b = true ∧ windowStartMs cfg ≤ timeOfDay now
                ∧ timeOfDay now < windowEndMs cfg)) := by
  have hiff := isAttendanceWindowOpen_iff cfg flag now
  have hacc : (recordAttendance cfg flag now tid ts un fn db).1 ≠ windowClosedResult
      → isAttendanceWindowOpen cfg flag now = true := by
    intro hne
    by_contra hc
    rw [Bool.not_eq_true] at hc
    rw [recordAttendance_closed cfg flag now tid ts un fn db hc] at hne
    exact hne rfl
  refine ⟨?_, ?_, ?_⟩
  · intro h
    apply recordAttendance_closed
    rw [← Bool.not_eq_true, hiff]
    rintro ⟨h1, h2, h3⟩
    rcases h with h | h | h
    · exact h1 h
    · exact absurd h2 (not_le.mpr h)
    · exact absurd h3 (not_lt.mpr h)
  · intro hne
    exact hiff.mp (hacc hne)
  · intro b hb
    constructor
    · intro hne
      have h := hiff.mp (hacc hne)
      refine ⟨?_, h.2⟩
      cases b
      · exact absurd hb h.1
      · rfl
    · rintro ⟨hbt, h2⟩
      apply recordAttendance_open_ne
      rw [hiff]
      refine ⟨?_, h2⟩
      rw [hb, hbt]
      simp

theorem window_gating_witness :
    recordAttendance defaultConfig (some false) sampleNow 102 TimestampArg.null none none
        sampleDb = (windowClosedResult, sampleDb)
      ∧ recordAttendance defaultConfig (some true) (sampleNow + 1800000) 555
        TimestampArg.null (some "dan") none sampleDb = (windowClosedResult, sampleDb) :=
  ⟨(window_gating defaultConfig (some false) sampleNow 102 TimestampArg.null none none
      sampleDb).1 (Or.inl rfl),
   (window_gating defaultConfig (some true) (sampleNow + 1800000) 555 TimestampArg.null
      (some "dan") none sampleDb).1 (Or.inr (Or.inr (by decide)))⟩

/-- The fine of an accepted late check-in. -/
theorem recordAttendance_late_fines (cfg : Config) (flag : Option Bool) (now tid : Int)
    (ts : TimestampArg) (un fn : Option String) (db : DB)
    (hopen : isAttendanceWindowOpen cfg flag now = true)
    (hnone : selectAttendance db (memberId db tid) (getPhnomPenhDate now) = [])
    (hlate : classify (resolveTimestamp ts now) = Status.late) :
    (recordAttendance cfg flag now tid ts un fn db).2.fines
      = db.fines ++
          [{ id := db.fines_id_seq, user_id := memberId db tid,
             date := getPhnomPenhDate now, amount := getFineAmount cfg db }] := by
  rw [← classify_eq _ now] at hlate
  rw [recordAttendance_accept cfg flag now tid ts un fn db hopen hnone]
  split
  · next hb => simp [hb] at hlate
  · simp [insertFine, insertAttendance, getOrCreateUser_fines, getOrCreateUser_fines_seq]

/-- C5: a successful `recordAttendance` for a member with no record today
inserts exactly one attendance record for (member, today) carrying the check-in
instant; when the status is late it also inserts exactly one fine for
(member, today) whose amount is the stored `fine_amount` setting, or the default
when the setting is unset; when the status is present it inserts no fine. -/
theorem recordAttendance_inserts (cfg : Config) (flag : Option Bool) (now tid : Int)
    (ts : TimestampArg) (un fn : Option String) (db : DB)
    (hopen : isAttendanceWindowOpen cfg flag now = true)
    (hnone : selectAttendance db (memberId db tid) (getPhnomPenhDate now) = []) :
    (recordAttendance cfg flag now tid ts un fn db).1.success = true
      ∧ (recordAttendance cfg flag now tid ts un fn db).2.attendance_records
          = db.attendance_records ++
              [{ id := db.attendance_records_id_seq, user_id := memberId db tid,
                 date := getPhnomPenhDate now, status := classify (resolveTimestamp ts now),
                 timestamp := some (resolveTimestamp ts now) }]
      ∧ (classify (resolveTimestamp ts now) = Status.late →
          (recordAttendance cfg flag now tid ts un fn db).2.fines
            = db.fines ++
                [{ id := db.fines_id_seq, user_id := memberId db tid,
                   date := getPhnomPenhDate now, amount := getFineAmount cfg db }])
      ∧ (classify (resolveTimestamp ts now) = Status.present →
          (recordAttendance cfg flag now tid ts un fn db).2.fines = db.fines)
      ∧ (∀ v : Amount, db.settings.fine_amount = some v → getFineAmount cfg db = v)
      ∧ (db.settings.fine_amount = none → getFineAmount cfg db = cfg.DEFAULT_FINE_AMOUNT) := by
  have hacc := recordAttendance_accept cfg flag now tid ts un fn db hopen hnone
  have hcl := classify_eq (resolveTimestamp ts now) now
  refine ⟨?_, ?_, ?_, ?_, ?_, ?_⟩
  · rw [hacc]
    split <;> rfl
  · rw [hacc, ← hcl]
    split
    · simp [insertAttendance, getOrCreateUser_attendance, getOrCreateUser_attendance_seq]
    · simp [insertFine, insertAttendance, getOrCreateUser_attendance,
        getOrCreateUser_attendance_seq]
  · intro hlate
    exact recordAttendance_late_fines cfg flag now tid ts un fn db hopen hnone hlate
  · intro hpres
    rw [← hcl] at hpres
    rw [hacc]
    split
    · simp [insertAttendance, getOrCreateUser_fines]
    · next hb => simp [hb] at hpres
  · intro v hv
    simp [getFineAmount, hv]
  · intro hv
    simp [getFineAmount, hv]

theorem recordAttendance_inserts_witness :
    (recordAttendance wideConfig (some true) sampleLateNow 102
        (TimestampArg.number (20000 * 86400000 + 12500000)) none none
        sampleDb).2.attendance_records
        = sampleDb.attendance_records ++
            [{ id := 2, user_id := 2, date := 20000, status := Status.late,
               timestamp := some (20000 * 86400000 + 12500000) }]
      ∧ (recordAttendance wideConfig (some true) sampleLateNow 102
        (TimestampArg.number (20000 * 86400000 + 12500000)) none none sampleDb).2.fines
        = [{ id := 1, user_id := 2, date := 20000, amount := 20 }] :=
  ⟨(recordAttendance_inserts wideConfig (some true) sampleLateNow 102
      (TimestampArg.number (20000 * 86400000 + 12500000)) none none sampleDb
      (by decide) (by decide)).2.1,
   (recordAttendance_inserts wideConfig (some true) sampleLateNow 102
      (TimestampArg.number (20000 * 86400000 + 12500000)) none none sampleDb
      (by decide) (by decide)).2.2.1 (by decide)⟩

/-! ## The sweep -/

theorem selectAttendance_eq_filter_attendanceOf (db : DB) (u : Nat) (d : Int) :
    selectAttendance db u d = (attendanceOf db u).filter (fun r => r.date == d) := by
  simp only [selectAttendance, attendanceOf, List.filter_filter]
  apply List.filter_congr
  intro r _
  exact Bool.and_comm _ _

theorem sweepUser_users (date : Int) (a : Amount) (db : DB) (user : User) :
    (sweepUser date a db user).users = db.users := by
  unfold sweepUser
  split <;> rfl

theorem sweepUser_settings (date : Int) (a : Amount) (db : DB) (user : User) :
    (sweepUser date a db user).settings = db.settings := by
  unfold sweepUser
  split <;> rfl

theorem foldl_sweepUser_users (date : Int) (a : Amount) (users : List User) (db : DB) :
    (users.foldl (sweepUser date a) db).users = db.users := by
  induction users generalizing db with
  | nil => rfl
  | cons u us ih => rw [List.foldl_cons, ih, sweepUser_users]

theorem foldl_sweepUser_settings (date : Int) (a : Amount) (users : List User) (db : DB) :
    (users.foldl (sweepUser date a) db).settings = db.settings := by
  induction users generalizing db with
  | nil => rfl
  | cons u us ih => rw [List.foldl_cons, ih, sweepUser_settings]

/-- A user row whose member already has a record for the day is skipped. -/
theorem sweepUser_skip (date : Int) (a : Amount) (db : DB) (user : User)
    (h : selectAttendance db user.id date ≠ []) : sweepUser date a db user = db := by
  unfold sweepUser
  rw [if_neg]
  intro hlen
  exact h (List.length_eq_zero.mp hlen)

/-- A user row whose member has no record for the day gets one record and one fine. -/
theorem sweepUser_mark (date : Int) (a : Amount) (db : DB) (user : User)
    (h : selectAttendance db user.id date = []) :
    sweepUser date a db user
      = insertFine (insertAttendance db user.id date Status.absent none) user.id date a := by
  unfold sweepUser
  rw [if_pos]
  rw [h]
  rfl

/-- The sweep of one user row does not touch the rows of another member. -/
theorem sweepUser_other (date : Int) (a : Amount) (db : DB) (user : User) (uid : Nat)
    (hne : user.id ≠ uid) :
    attendanceOf (sweepUser date a db user) uid = attendanceOf db uid
      ∧ finesOf (sweepUser date a db user) uid = finesOf db uid := by
  unfold sweepUser
  split
  · simp [attendanceOf, finesOf, insertFine, insertAttendance, List.filter_append, hne]
  · exact ⟨rfl, rfl⟩

theorem foldl_sweepUser_other (date : Int) (a : Amount) (users : List User) (db : DB)
    (uid : Nat) (hne : ∀ u ∈ users, u.id ≠ uid) :
    attendanceOf (users.foldl (sweepUser date a) db) uid = attendanceOf db uid
      ∧ finesOf (users.foldl (sweepUser date a) db) uid = finesOf db uid := by
  induction users generalizing db with
  | nil => exact ⟨rfl, rfl⟩
  | cons u us ih =>
    have h1 := sweepUser_other date a db u uid (hne u (List.mem_cons_self _ _))
    have h2 := ih (sweepUser date a db u) (fun v hv => hne v (List.mem_cons_of_mem _ hv))
    rw [List.foldl_cons]
    exact ⟨h2.1.trans h1.1, h2.2.trans h1.2⟩

/-- A member who has a record for the day keeps all rows through the sweep. -/
theorem foldl_sweepUser_has (date : Int) (a : Amount) (users : List User) (db : DB)
    (uid : Nat) (h : selectAttendance db uid date ≠ []) :
    attendanceOf (users.foldl (sweepUser date a) db) uid = attendanceOf db uid
      ∧ finesOf (users.foldl (sweepUser date a) db) uid = finesOf db uid := by
  induction users generalizing db with
  | nil => exact ⟨rfl, rfl⟩
  | cons u us ih =>
    rw [List.foldl_cons]
    by_cases hu : u.id = uid
    · have hskip : sweepUser date a db u = db := sweepUser_skip date a db u (by rw [hu]; exact h)
      rw [hskip]
      exact ih db h
    · have h1 := sweepUser_other date a db u uid hu
      have hsel : selectAttendance (sweepUser date a db u) uid date ≠ [] := by
        rw [selectAttendance_eq_filter_attendanceOf, h1.1,
          ← selectAttendance_eq_filter_attendanceOf]
        exact h
      have h2 := ih (sweepUser date a db u) hsel
      exact ⟨h2.1.trans h1.1, h2.2.trans h1.2⟩

/-- A member of the swept list who has no record for the day gets exactly one
absent record and exactly one fine. -/
theorem foldl_sweepUser_gets (date : Int) (a : Amount) (users : List User) (db : DB)
    (uid : Nat) (hmem : ∃ u ∈ users, u.id = uid) (h : selectAttendance db uid date = []) :
    ∃ rid fid : Nat,
      attendanceOf (users.foldl (sweepUser date a) db) uid
          = attendanceOf db uid ++
              [{ id := rid, user_id := uid, date := date, status := Status.absent,
                 timestamp := none }]
        ∧ finesOf (users.foldl (sweepUser date a) db) uid
          = finesOf db uid ++ [{ id := fid, user_id := uid, date := date, amount := a }] := by
  induction users generalizing db with
  | nil =>
    obtain ⟨u, hu, _⟩ := hmem
    simp at hu
  | cons u us ih =>
    rw [List.foldl_cons]
    by_cases hu : u.id = uid
    · have hmark := sweepUser_mark date a db u (by rw [hu]; exact h)
      rw [hu] at hmark
      have hatt : attendanceOf (sweepUser date a db u) uid
          = attendanceOf db uid ++
              [{ id := db.attendance_records_id_seq, user_id := uid, date := date,
                 status := Status.absent, timestamp := none }] := by
        rw [hmark]
        simp [attendanceOf, insertFine, insertAttendance, List.filter_append]
      have hfin : finesOf (sweepUser date a db u) uid
          = finesOf db uid ++
              [{ id := db.fines_id_seq, user_id := uid, date := date, amount := a }] := by
        rw [hmark]
        simp [finesOf, insertFine, insertAttendance, List.filter_append]
      have hsel : selectAttendance (sweepUser date a db u) uid date ≠ [] := by
        rw [selectAttendance_eq_filter_attendanceOf, hatt]
        simp [List.filter_append]
      have h2 := foldl_sweepUser_has date a us (sweepUser date a db u) uid hsel
      exact ⟨db.attendance_records_id_seq, db.fines_id_seq, h2.1.trans hatt, h2.2.trans hfin⟩
    · have h1 := sweepUser_other date a db u uid hu
      have hsel : selectAttendance (sweepUser date a db u) uid date = [] := by
        rw [selectAttendance_eq_filter_attendanceOf, h1.1,
          ← selectAttendance_eq_filter_attendanceOf]
        exact h
      have hmem' : ∃ v ∈ us, v.id = uid := by
        obtain ⟨v, hv, hvid⟩ := hmem
        rcases List.mem_cons.mp hv with rfl | hv'
        · exact absurd hvid hu
        · exact ⟨v, hv', hvid⟩
      obtain ⟨rid, fid, h2⟩ := ih (sweepUser date a db u) hmem' hsel
      exact ⟨rid, fid, by rw [h2.1, h1.1], by rw [h2.2, h1.2]⟩

/-- After the sweep every member of the swept list has a record for the day. -/
theorem foldl_sweepUser_covers (date : Int) (a : Amount) (users : List User) (db : DB)
    (u : User) (hu : u ∈ users) :
    selectAttendance (users.foldl (sweepUser date a) db) u.id date ≠ [] := by
  by_cases h : selectAttendance db u.id date = []
  · obtain ⟨rid, fid, h1, _⟩ := foldl_sweepUser_gets date a users db u.id ⟨u, hu, rfl⟩ h
    rw [selectAttendance_eq_filter_attendanceOf, h1]
    simp [List.filter_append]
  · have h1 := foldl_sweepUser_has date a users db u.id h
    rw [selectAttendance_eq_filter_attendanceOf, h1.1,
      ← selectAttendance_eq_filter_attendanceOf]
    exact h

/-- A sweep over members who all have a record for the day changes nothing. -/
theorem foldl_sweepUser_noop (date : Int) (a : Amount) (users : List User) (db : DB)
    (h : ∀ u ∈ users, selectAttendance db u.id date ≠ []) :
    users.foldl (sweepUser date a) db = db := by
  induction users with
  | nil => rfl
  | cons u us ih =>
    rw [List.foldl_cons, sweepUser_skip date a db u (h u (List.mem_cons_self _ _))]
    exact ih (fun v hv => h v (List.mem_cons_of_mem _ hv))

/-- The fines a sweep adds all carry the amount read before the loop. -/
theorem foldl_sweepUser_fines (date : Int) (a : Amount) (users : List User) (db : DB) :
    ∃ added : List Fine,
      (users.foldl (sweepUser date a) db).fines = db.fines ++ added
        ∧ ∀ f ∈ added, f.amount = a ∧ f.date = date := by
  induction users generalizing db with
  | nil => exact ⟨[], by simp, by simp⟩
  | cons u us ih =>
    rw [List.foldl_cons]
    obtain ⟨added, h1, h2⟩ := ih (sweepUser date a db u)
    by_cases h : selectAttendance db u.id date = []
    · refine ⟨{ id := db.fines_id_seq, user_id := u.id, date := date, amount := a } :: added,
        ?_, ?_⟩
      · rw [h1, sweepUser_mark date a db u h]
        simp [insertFine, insertAttendance]
      · intro f hf
        rcases List.mem_cons.mp hf with rfl | hf'
        · exact ⟨rfl, rfl⟩
        · exact h2 f hf'
    · refine ⟨added, ?_, h2⟩
      rw [h1, sweepUser_skip date a db u h]

/-- C6: sweep postcondition. After `processDailyAttendance` every active member
has an attendance record for today. Each active member who had none gets exactly
one `absent` record with a null check-in instant and exactly one fine at the
current policy amount; a member who already had a record of any status, and every
member who is not active, keeps all records and fines unchanged. -/
theorem sweep_postcondition (cfg : Config) (now : Int) (db : DB) :
    (∀ u ∈ db.users, u.is_active = true →
        selectAttendance (processDailyAttendance cfg now db) u.id (getPhnomPenhDate now) ≠ [])
      ∧ (∀ u ∈ db.users, u.is_active = true →
          selectAttendance db u.id (getPhnomPenhDate now) = [] →
          ∃ rid fid : Nat,
            attendanceOf (processDailyAttendance cfg now db) u.id
                = attendanceOf db u.id ++
                    [{ id := rid, user_id := u.id, date := getPhnomPenhDate now,
                       status := Status.absent, timestamp := none }]
              ∧ selectAttendance (processDailyAttendance cfg now db) u.id
                  (getPhnomPenhDate now)
                = [{ id := rid, user_id := u.id, date := getPhnomPenhDate now,
                     status := Status.absent, timestamp := none }]
              ∧ finesOf (processDailyAttendance cfg now db) u.id
                = finesOf db u.id ++
                    [{ id := fid, user_id := u.id, date := getPhnomPenhDate now,
                       amount := getFineAmount cfg db }])
      ∧ (∀ uid : Nat, selectAttendance db uid (getPhnomPenhDate now) ≠ [] →
          attendanceOf (processDailyAttendance cfg now db) uid = attendanceOf db uid
            ∧ finesOf (processDailyAttendance cfg now db) uid = finesOf db uid)
      ∧ (∀ uid : Nat, (∀ u ∈ db.users, u.is_active = true → u.id ≠ uid) →
          attendanceOf (processDailyAttendance cfg now db) uid = attendanceOf db uid
            ∧ finesOf (processDailyAttendance cfg now db) uid = finesOf db uid)
      ∧ ((db.users.map (fun u => u.id)).Nodup →
          ∀ u ∈ db.users, u.is_active = false →
            attendanceOf (processDailyAttendance cfg now db) u.id = attendanceOf db u.id
              ∧ finesOf (processDailyAttendance cfg now db) u.id = finesOf db u.id) := by
  have hother : ∀ uid : Nat, (∀ u ∈ db.users, u.is_active = true → u.id ≠ uid) →
      attendanceOf (processDailyAttendance cfg now db) uid = attendanceOf db uid
        ∧ finesOf (processDailyAttendance cfg now db) uid = finesOf db uid := by
    intro uid hne
    apply foldl_sweepUser_other
    intro u hu
    rw [List.mem_filter] at hu
    exact hne u hu.1 hu.2
  refine ⟨?_, ?_, ?_, hother, ?_⟩
  · intro u hu hact
    exact foldl_sweepUser_covers _ _ _ db u (List.mem_filter.mpr ⟨hu, hact⟩)
  · intro u hu hact hnone
    obtain ⟨rid, fid, h1, h2⟩ := foldl_sweepUser_gets (getPhnomPenhDate now)
      (getFineAmount cfg db) (db.users.filter (fun u => u.is_active)) db u.id
      ⟨u, List.mem_filter.mpr ⟨hu, hact⟩, rfl⟩ hnone
    refine ⟨rid, fid, h1, ?_, h2⟩
    have h3 : (attendanceOf db u.id).filter (fun r => r.date == getPhnomPenhDate now) = [] := by
      rw [← selectAttendance_eq_filter_attendanceOf]
      exact hnone
    rw [selectAttendance_eq_filter_attendanceOf]
    unfold processDailyAttendance
    rw [h1, List.filter_append, h3]
    simp
  · intro uid hsome
    exact foldl_sweepUser_has _ _ _ db uid hsome
  · intro hnodup u hu hinact
    apply hother
    intro v hv hact hid
    have huv : v = u := List.inj_on_of_nodup_map hnodup hv hu hid
    rw [huv, hinact] at hact
    exact Bool.false_ne_true hact

theorem setfine_users (cfg : Config) (who : Int) (arg : Option Amount) (db : DB) :
    (setfine cfg who arg db).users = db.users := by
  unfold setfine
  split
  · rfl
  · split
    · rfl
    · split <;> rfl

theorem setfine_attendance (cfg : Config) (who : Int) (arg : Option Amount) (db : DB) :
    (setfine cfg who arg db).attendance_records = db.attendance_records := by
  unfold setfine
  split
  · rfl
  · split
    · rfl
    · split <;> rfl

theorem setfine_fines (cfg : Config) (who : Int) (arg : Option Amount) (db : DB) :
    (setfine cfg who arg db).fines = db.fines := by
  unfold setfine
  split
  · rfl
  · split
    · rfl
    · split <;> rfl

/-- A sweep of a store in which a sweep of the same day has run, whatever has
happened to the settings since, changes nothing. -/
theorem processDailyAttendance_again (cfg cfg' : Config) (now now' : Int) (db db' : DB)
    (hday : getPhnomPenhDate now' = getPhnomPenhDate now)
    (husers : db'.users = db.users)
    (hatt : db'.attendance_records = (processDailyAttendance cfg now db).attendance_records) :
    processDailyAttendance cfg' now' db' = db' := by
  unfold processDailyAttendance
  apply foldl_sweepUser_noop
  intro u hu
  rw [husers] at hu
  have hcov := foldl_sweepUser_covers (getPhnomPenhDate now) (getFineAmount cfg db)
    (db.users.filter (fun u => u.is_active)) db u hu
  rw [hday]
  unfold selectAttendance
  rw [hatt]
  exact hcov

/-- C7: idempotent sweep. Running `processDailyAttendance` twice for the same day
leaves the attendance records and fines of one run; the second run inserts
nothing, also when `/setfine` changed the fine amount between the two runs. -/
theorem sweep_idempotent (cfg : Config) (now now' : Int) (who : Int) (arg : Option Amount)
    (db : DB) (hday : getPhnomPenhDate now' = getPhnomPenhDate now) :
    processDailyAttendance cfg now' (processDailyAttendance cfg now db)
        = processDailyAttendance cfg now db
      ∧ processDailyAttendance cfg now'
          (setfine cfg who arg (processDailyAttendance cfg now db))
        = setfine cfg who arg (processDailyAttendance cfg now db)
      ∧ (processDailyAttendance cfg now'
          (setfine cfg who arg (processDailyAttendance cfg now db))).attendance_records
        = (processDailyAttendance cfg now db).attendance_records
      ∧ (processDailyAttendance cfg now'
          (setfine cfg who arg (processDailyAttendance cfg now db))).fines
        = (processDailyAttendance cfg now db).fines := by
  have h1 : processDailyAttendance cfg now' (processDailyAttendance cfg now db)
      = processDailyAttendance cfg now db :=
    processDailyAttendance_again cfg cfg now now' db _ hday
      (foldl_sweepUser_users _ _ _ db) rfl
  have h2 : processDailyAttendance cfg now'
      (setfine cfg who arg (processDailyAttendance cfg now db))
      = setfine cfg who arg (processDailyAttendance cfg now db) :=
    processDailyAttendance_again cfg cfg now now' db _ hday
      ((setfine_users _ _ _ _).trans (foldl_sweepUser_users _ _ _ db))
      (setfine_attendance _ _ _ _)
  refine ⟨h1, h2, ?_, ?_⟩
  · rw [h2, setfine_attendance]
  · rw [h2, setfine_fines]

theorem sweep_idempotent_witness :
    (processDailyAttendance defaultConfig (sampleNow + 1800000)
        (setfine defaultConfig 0 (some 30)
          (processDailyAttendance defaultConfig sampleNow sampleDb))).fines
        = [{ id := 1, user_id := 2, date := 20000, amount := 20 }]
      ∧ (processDailyAttendance defaultConfig sampleNow sampleDb).fines
        = [{ id := 1, user_id := 2, date := 20000, amount := 20 }] :=
  ⟨(sweep_idempotent defaultConfig sampleNow (sampleNow + 1800000) 0 (some 30) sampleDb
      (by decide)).2.2.2.trans (by decide),
   by decide⟩

/-! ## The override -/

theorem selectFines_insertFine (db : DB) (u : Nat) (d : Int) (a : Amount) (u' : Nat)
    (d' : Int) :
    selectFines (insertFine db u d a) u' d'
      = selectFines db u' d' ++
          (if u = u' ∧ d = d' then
            [{ id := db.fines_id_seq, user_id := u, date := d, amount := a }]
           else []) := by
  by_cases h : u = u' ∧ d = d'
  · simp [selectFines, insertFine, List.filter_append, List.filter_cons, h]
  · have h' : ¬ (u = u' ∧ d = d') := h
    simp only [selectFines, insertFine, List.filter_append, List.filter_cons,
      List.filter_nil, if_neg h]
    simp [h']

theorem selectFines_deleteFines (db : DB) (u : Nat) (d : Int) (u' : Nat) (d' : Int) :
    selectFines (deleteFines db u d) u' d'
      = if u' = u ∧ d' = d then [] else selectFines db u' d' := by
  simp only [selectFines, deleteFines, List.filter_filter]
  by_cases h : u' = u ∧ d' = d
  · rw [if_pos h]
    obtain ⟨rfl, rfl⟩ := h
    apply List.filter_eq_nil_iff.mpr
    intro r _
    simp
  · rw [if_neg h]
    apply List.filter_congr
    intro r _
    by_cases h1 : r.user_id = u' <;> by_cases h2 : r.date = d' <;> simp [h1, h2]
    by_contra hc
    exact h ⟨by tauto, by tauto⟩

/-- What `forceMarkAttendance` does for a member it finds. -/
theorem forceMarkAttendance_found (cfg : Config) (now tid : Int) (status : String)
    (target : Option Int) (db : DB) (member : User)
    (hmember : (selectUsersByTelegramId db tid).head? = some member) :
    forceMarkAttendance cfg now tid status target db
      = if status = "present" then
          (true,
            insertAttendance
              (deleteFines (deleteAttendance db member.id (resolveTargetDate target now))
                member.id (resolveTargetDate target now))
              member.id (resolveTargetDate target now) Status.present (some now))
        else if status = "absent" then
          (true,
            insertFine
              (insertAttendance
                (deleteFines (deleteAttendance db member.id (resolveTargetDate target now))
                  member.id (resolveTargetDate target now))
                member.id (resolveTargetDate target now) Status.absent none)
              member.id (resolveTargetDate target now) (getFineAmount cfg db))
        else
          (true,
            deleteFines (deleteAttendance db member.id (resolveTargetDate target now))
              member.id (resolveTargetDate target now)) := by
  unfold forceMarkAttendance
  cases hs : selectUsersByTelegramId db tid with
  | nil => rw [hs] at hmember; simp at hmember
  | cons row rest =>
    rw [hs] at hmember
    simp only [List.head?_cons, Option.some.injEq] at hmember
    subst hmember
    rfl

/-- C8: override consistency. For an existing member with a `present` record for
day `d`, `forceMarkAttendance(m, 'absent', d)` returns true and leaves exactly one
attendance record for `(m, d)`, absent with a null instant, and exactly one fine
for `(m, d)`, at the current policy amount; the earlier rows of `(m, d)` are
deleted and the rows of every other member or day are unchanged. -/
theorem override_consistency (cfg : Config) (now tid : Int) (target : Option Int) (db : DB)
    (member : User) (r : AttendanceRecord)
    (hmember : (selectUsersByTelegramId db tid).head? = some member)
    (hr : r ∈ selectAttendance db member.id (resolveTargetDate target now))
    (hpresent : r.status = Status.present) :
    (forceMarkAttendance cfg now tid "absent" target db).1 = true
      ∧ (forceMarkAttendance cfg now tid "absent" target db).2.attendance_records
          = db.attendance_records.filter
              (fun x => !(x.user_id == member.id && x.date == resolveTargetDate target now))
            ++ [{ id := db.attendance_records_id_seq, user_id := member.id,
                  date := resolveTargetDate target now, status := Status.absent,
                  timestamp := none }]
      ∧ (forceMarkAttendance cfg now tid "absent" target db).2.fines
          = db.fines.filter
              (fun x => !(x.user_id == member.id && x.date == resolveTargetDate target now))
            ++ [{ id := db.fines_id_seq, user_id := member.id,
                  date := resolveTargetDate target now, amount := getFineAmount cfg db }]
      ∧ selectAttendance (forceMarkAttendance cfg now tid "absent" target db).2 member.id
          (resolveTargetDate target now)
          = [{ id := db.attendance_records_id_seq, user_id := member.id,
               date := resolveTargetDate target now, status := Status.absent,
               timestamp := none }]
      ∧ selectFines (forceMarkAttendance cfg now tid "absent" target db).2 member.id
          (resolveTargetDate target now)
          = [{ id := db.fines_id_seq, user_id := member.id,
               date := resolveTargetDate target now, amount := getFineAmount cfg db }]
      ∧ r ∉ (forceMarkAttendance cfg now tid "absent" target db).2.attendance_records
      ∧ (∀ (u : Nat) (d : Int), ¬ (u = member.id ∧ d = resolveTargetDate target now) →
          selectAttendance (forceMarkAttendance cfg now tid "absent" target db).2 u d
              = selectAttendance db u d
            ∧ selectFines (forceMarkAttendance cfg now tid "absent" target db).2 u d
              = selectFines db u d) := by
  rw [forceMarkAttendance_found cfg now tid "absent" target db member hmember]
  have hne : ¬ ("absent" = "present") := by decide
  rw [if_neg hne, if_pos rfl]
  refine ⟨rfl, rfl, rfl, ?_, ?_, ?_, ?_⟩
  · rw [selectAttendance_insertFine, selectAttendance_insertAttendance,
      selectAttendance_deleteFines, selectAttendance_deleteAttendance]
    simp [deleteFines, deleteAttendance]
  · rw [selectFines_insertFine]
    have h1 : selectFines
        (insertAttendance
          (deleteFines (deleteAttendance db member.id (resolveTargetDate target now))
            member.id (resolveTargetDate target now))
          member.id (resolveTargetDate target now) Status.absent none)
        member.id (resolveTargetDate target now)
        = selectFines
            (deleteFines (deleteAttendance db member.id (resolveTargetDate target now))
              member.id (resolveTargetDate target now))
            member.id (resolveTargetDate target now) := rfl
    have h2 : (insertAttendance
          (deleteFines (deleteAttendance db member.id (resolveTargetDate target now))
            member.id (resolveTargetDate target now))
          member.id (resolveTargetDate target now) Status.absent none).fines_id_seq
        = db.fines_id_seq := rfl
    rw [h1, h2, selectFines_deleteFines]
    simp
  · intro hmem
    have hr' := List.mem_filter.mp hr
    simp only [insertFine, insertAttendance, deleteFines, deleteAttendance, List.mem_append,
      List.mem_filter, List.mem_singleton] at hmem
    rcases hmem with ⟨_, hx⟩ | hx
    · rw [hr'.2] at hx
      exact Bool.false_ne_true hx
    · rw [hx] at hpresent
      exact Status.noConfusion hpresent
  · intro u d hud
    constructor
    · rw [selectAttendance_insertFine, selectAttendance_insertAttendance,
        selectAttendance_deleteFines, selectAttendance_deleteAttendance, if_neg hud,
        if_neg (fun h => hud ⟨h.1.symm, h.2.symm⟩), List.append_nil]
    · rw [selectFines_insertFine, if_neg (fun h => hud ⟨h.1.symm, h.2.symm⟩),
        List.append_nil]
      have h1 : selectFines
          (insertAttendance
            (deleteFines (deleteAttendance db member.id (resolveTargetDate target now))
              member.id (resolveTargetDate target now))
            member.id (resolveTargetDate target now) Status.absent none) u d
          = selectFines
              (deleteFines (deleteAttendance db member.id (resolveTargetDate target now))
                member.id (resolveTargetDate target now)) u d := rfl
      rw [h1, selectFines_deleteFines, if_neg hud]
      rfl

theorem override_consistency_witness :
    (forceMarkAttendance defaultConfig sampleNow 101 "absent" (some 20000)
        sampleDb).2.attendance_records
        = [{ id := 2, user_id := 1, date := 20000, status := Status.absent,
             timestamp := none }]
      ∧ (forceMarkAttendance defaultConfig sampleNow 101 "absent" (some 20000) sampleDb).2.fines
        = [{ id := 1, user_id := 1, date := 20000, amount := 20 }] :=
  ⟨(override_consistency defaultConfig sampleNow 101 (some 20000) sampleDb
      { id := 1, telegram_id := 101, username := some "alice", full_name := none,
        is_active := true }
      { id := 1, user_id := 1, date := 20000, status := Status.present,
        timestamp := some (20000 * 86400000 + 7500000) }
      (by decide) (by decide) rfl).2.1,
   (override_consistency defaultConfig sampleNow 101 (some 20000) sampleDb
      { id := 1, telegram_id := 101, username := some "alice", full_name := none,
        is_active := true }
      { id := 1, user_id := 1, date := 20000, status := Status.present,
        timestamp := some (20000 * 86400000 + 7500000) }
      (by decide) (by decide) rfl).2.2.1⟩

/-- C9, as the code has it: for an existing member `forceMarkAttendance` returns
true for every status; for `present` and for `absent` exactly one attendance
record exists afterwards for (member, day) and carries the requested status,
whatever was recorded before; for `late` no record is left for (member, day). -/
theorem forceMark_requested_status (cfg : Config) (now tid : Int) (st : Status)
    (target : Option Int) (db : DB) (member : User)
    (hmember : (selectUsersByTelegramId db tid).head? = some member) :
    (forceMarkAttendance cfg now tid st.name target db).1 = true
      ∧ (st ≠ Status.late →
          selectAttendance (forceMarkAttendance cfg now tid st.name target db).2 member.id
              (resolveTargetDate target now)
            = [{ id := db.attendance_records_id_seq, user_id := member.id,
                 date := resolveTargetDate target now, status := st,
                 timestamp := if st = Status.present then some now else none }])
      ∧ (st = Status.late →
          selectAttendance (forceMarkAttendance cfg now tid st.name target db).2 member.id
              (resolveTargetDate target now) = []) := by
  rw [forceMarkAttendance_found cfg now tid st.name target db member hmember]
  cases st with
  | present =>
    have h0 : Status.present.name = "present" := rfl
    rw [if_pos h0]
    refine ⟨rfl, fun _ => ?_, fun h => Status.noConfusion h⟩
    rw [selectAttendance_insertAttendance, selectAttendance_deleteFines,
      selectAttendance_deleteAttendance]
    simp [deleteFines, deleteAttendance]
  | late =>
    have h1 : ¬ (Status.late.name = "present") := by decide
    have h2 : ¬ (Status.late.name = "absent") := by decide
    rw [if_neg h1, if_neg h2]
    refine ⟨rfl, fun h => absurd rfl h, fun _ => ?_⟩
    rw [selectAttendance_deleteFines, selectAttendance_deleteAttendance]
    simp
  | absent =>
    have h1 : ¬ (Status.absent.name = "present") := by decide
    have h2 : Status.absent.name = "absent" := rfl
    rw [if_neg h1, if_pos h2]
    refine ⟨rfl, fun _ => ?_, fun h => Status.noConfusion h⟩
    rw [selectAttendance_insertFine, selectAttendance_insertAttendance,
      selectAttendance_deleteFines, selectAttendance_deleteAttendance]
    simp [deleteFines, deleteAttendance]

theorem forceMark_requested_status_witness :
    (forceMarkAttendance defaultConfig sampleNow 102 "present" none sampleDb).1 = true
      ∧ selectAttendance (forceMarkAttendance defaultConfig sampleNow 102 "present" none
          sampleDb).2 2 20000
        = [{ id := 2, user_id := 2, date := 20000, status := Status.present,
             timestamp := some sampleNow }] :=
  ⟨(forceMark_requested_status defaultConfig sampleNow 102 Status.present none sampleDb
      { id := 2, telegram_id := 102, username := some "bob", full_name := some "Bob B",
        is_active := true } (by decide)).1,
   (forceMark_requested_status defaultConfig sampleNow 102 Status.present none sampleDb
      { id := 2, telegram_id := 102, username := some "bob", full_name := some "Bob B",
        is_active := true } (by decide)).2.1 (by decide)⟩

/-- C9 fails for the status `late`: for the existing member 101, who has a
record for day 20000, the call returns true and leaves no record for that
member and day, so there is not exactly one record carrying `late`. -/
theorem forceMark_late_counterexample :
    (selectUsersByTelegramId sampleDb 101).head?
        = some { id := 1, telegram_id := 101, username := some "alice", full_name := none,
                 is_active := true }
      ∧ (forceMarkAttendance defaultConfig sampleNow 101 Status.late.name (some 20000)
          sampleDb).1 = true
      ∧ ¬ ∃ r : AttendanceRecord,
          selectAttendance
              (forceMarkAttendance defaultConfig sampleNow 101 Status.late.name (some 20000)
                sampleDb).2 1 20000 = [r]
            ∧ r.status = Status.late := by
  refine ⟨by decide, by decide, ?_⟩
  rintro ⟨r, hr, _⟩
  have hnil : selectAttendance
      (forceMarkAttendance defaultConfig sampleNow 101 Status.late.name (some 20000)
        sampleDb).2 1 20000 = [] := by decide
  rw [hnil] at hr
  exact List.noConfusion hr

/-! ## The fine policy -/

theorem setfine_getFineAmount (cfg : Config) (who : Int) (a : Amount) (db : DB)
    (hadmin : isAdmin cfg who = true) (hnonneg : 0 ≤ a) :
    getFineAmount cfg (setfine cfg who (some a) db) = a := by
  unfold setfine
  simp only [hadmin, Bool.not_true, Bool.false_eq_true, if_false, if_neg (not_lt.mpr hnonneg)]
  rfl

theorem setfine_memberId (cfg : Config) (who : Int) (arg : Option Amount) (db : DB)
    (tid : Int) : memberId (setfine cfg who arg db) tid = memberId db tid := by
  unfold setfine
  split
  · rfl
  · split
    · rfl
    · split <;> rfl

theorem setfine_seqs (cfg : Config) (who : Int) (arg : Option Amount) (db : DB) :
    (setfine cfg who arg db).fines_id_seq = db.fines_id_seq
      ∧ (setfine cfg who arg db).attendance_records_id_seq = db.attendance_records_id_seq := by
  unfold setfine
  split
  · exact ⟨rfl, rfl⟩
  · split
    · exact ⟨rfl, rfl⟩
    · split <;> exact ⟨rfl, rfl⟩

/-- C10: fine amount capture. `/setfine` never alters a fines row, whoever sends
it and whatever its argument. Once an administrator has set the amount to `a`,
the setting reads `a`, and a fine created afterwards by a late check-in, by the
sweep or by a forced absent has amount `a`. -/
theorem fine_amount_capture (cfg : Config) (who : Int) (a : Amount) (db : DB)
    (hadmin : isAdmin cfg who = true) (hnonneg : 0 ≤ a) :
    (∀ (sender : Int) (arg : Option Amount), (setfine cfg sender arg db).fines = db.fines)
      ∧ getFineAmount cfg (setfine cfg who (some a) db) = a
      ∧ (∀ (flag : Option Bool) (now tid : Int) (ts : TimestampArg) (un fn : Option String),
          isAttendanceWindowOpen cfg flag now = true →
          selectAttendance db (memberId db tid) (getPhnomPenhDate now) = [] →
          classify (resolveTimestamp ts now) = Status.late →
          (recordAttendance cfg flag now tid ts un fn (setfine cfg who (some a) db)).2.fines
            = db.fines ++
                [{ id := db.fines_id_seq, user_id := memberId db tid,
                   date := getPhnomPenhDate now, amount := a }])
      ∧ (∀ now : Int, ∃ added : List Fine,
          (processDailyAttendance cfg now (setfine cfg who (some a) db)).fines
              = db.fines ++ added
            ∧ ∀ f ∈ added, f.amount = a ∧ f.date = getPhnomPenhDate now)
      ∧ (∀ (now tid : Int) (target : Option Int) (member : User),
          (selectUsersByTelegramId db tid).head? = some member →
          (forceMarkAttendance cfg now tid "absent" target (setfine cfg who (some a) db)).2.fines
            = db.fines.filter
                (fun x => !(x.user_id == member.id && x.date == resolveTargetDate target now))
              ++ [{ id := db.fines_id_seq, user_id := member.id,
                    date := resolveTargetDate target now, amount := a }]) := by
  have hget := setfine_getFineAmount cfg who a db hadmin hnonneg
  have hfines := setfine_fines cfg who (some a) db
  have hseq := setfine_seqs cfg who (some a) db
  refine ⟨fun sender arg => setfine_fines cfg sender arg db, hget, ?_, ?_, ?_⟩
  · intro flag now tid ts un fn hopen hnone hlate
    have hnone' : selectAttendance (setfine cfg who (some a) db)
        (memberId (setfine cfg who (some a) db) tid) (getPhnomPenhDate now) = [] := by
      rw [setfine_memberId]
      unfold selectAttendance
      rw [setfine_attendance]
      exact hnone
    have h := recordAttendance_late_fines cfg flag now tid ts un fn
      (setfine cfg who (some a) db) hopen hnone' hlate
    rw [h, hfines, hseq.1, setfine_memberId, hget]
  · intro now
    obtain ⟨added, h1, h2⟩ := foldl_sweepUser_fines (getPhnomPenhDate now)
      (getFineAmount cfg (setfine cfg who (some a) db))
      ((setfine cfg who (some a) db).users.filter (fun u => u.is_active))
      (setfine cfg who (some a) db)
    refine ⟨added, ?_, ?_⟩
    · unfold processDailyAttendance
      rw [h1, hfines]
    · intro f hf
      rw [← hget]
      exact h2 f hf
  · intro now tid target member hmember
    have hmember' : (selectUsersByTelegramId (setfine cfg who (some a) db) tid).head?
        = some member := by
      unfold selectUsersByTelegramId
      rw [setfine_users]
      exact hmember
    rw [forceMarkAttendance_found cfg now tid "absent" target _ member hmember']
    have hne : ¬ ("absent" = "present") := by decide
    rw [if_neg hne, if_pos rfl, hget]
    simp only [insertFine, insertAttendance, deleteFines, deleteAttendance, hfines, hseq.1]

/-- The scenario of C10 with the amounts 20 and 30: the sweep fines member 2
at 20; after `/setfine 30` that fine still reads 20 and the forced absent of
member 1 is fined 30. -/
theorem fine_amount_capture_witness :
    (processDailyAttendance defaultConfig sampleNow sampleDb).fines
        = [{ id := 1, user_id := 2, date := 20000, amount := 20 }]
      ∧ (setfine defaultConfig 0 (some 30)
          (processDailyAttendance defaultConfig sampleNow sampleDb)).fines
        = [{ id := 1, user_id := 2, date := 20000, amount := 20 }]
      ∧ (forceMarkAttendance defaultConfig sampleNow 101 "absent" none
          (setfine defaultConfig 0 (some 30)
            (processDailyAttendance defaultConfig sampleNow sampleDb))).2.fines
        = [{ id := 1, user_id := 2, date := 20000, amount := 20 },
           { id := 2, user_id := 1, date := 20000, amount := 30 }] :=
  ⟨by decide,
   ((fine_amount_capture defaultConfig 0 30
      (processDailyAttendance defaultConfig sampleNow sampleDb) (by decide)
      (by decide)).1 0 (some 30)).trans (by decide),
   ((fine_amount_capture defaultConfig 0 30
      (processDailyAttendance defaultConfig sampleNow sampleDb) (by decide)
      (by decide)).2.2.2.2 sampleNow 101 none
      { id := 1, telegram_id := 101, username := some "alice", full_name := none,
        is_active := true } (by decide)).trans (by decide)⟩

/-! ## Failure and rollback -/

theorem keptOnThrow_returned (db : DB) (users : List User) (r : Result) (db' : DB) :
    KeptOnThrow db users (Ending.returned r, db') :=
  fun _ hs => Ending.noConfusion hs

theorem keptOnThrow_untouched (db : DB) (users : List User) (s : Statement) :
    KeptOnThrow db users (Ending.thrown s, db) :=
  fun _ _ => ⟨rfl, rfl, rfl, Or.inl rfl⟩

theorem keptOnThrow_committed (db committed : DB) (s : Statement)
    (hatt : committed.attendance_records = db.attendance_records)
    (hfin : committed.fines = db.fines) (hset : committed.settings = db.settings) :
    KeptOnThrow db committed.users (Ending.thrown s, committed) :=
  fun _ _ => ⟨hatt, hfin, hset, Or.inr rfl⟩

theorem keptOnThrow_rollback (db committed work : DB) (s : Statement)
    (hatt : committed.attendance_records = db.attendance_records)
    (hfin : committed.fines = db.fines) (hset : committed.settings = db.settings) :
    KeptOnThrow db committed.users (Ending.thrown s, rollback committed work) :=
  fun _ _ => ⟨hatt, hfin, hset, Or.inr rfl⟩

theorem recordAttendanceInserts_thrown (failing : Option Statement) (cfg : Config)
    (now ts : Int) (uid : Nat) (date : Int) (db committed : DB)
    (hatt : committed.attendance_records = db.attendance_records)
    (hfin : committed.fines = db.fines) (hset : committed.settings = db.settings) :
    KeptOnThrow db committed.users
      (recordAttendanceInserts failing cfg now ts uid date committed) := by
  unfold recordAttendanceInserts
  simp only []
  split
  · exact keptOnThrow_committed _ _ _ hatt hfin hset
  · split
    · split
      · exact keptOnThrow_rollback _ _ _ _ hatt hfin hset
      · exact keptOnThrow_returned _ _ _ _
    · split
      · exact keptOnThrow_rollback _ _ _ _ hatt hfin hset
      · split
        · exact keptOnThrow_rollback _ _ _ _ hatt hfin hset
        · split
          · exact keptOnThrow_rollback _ _ _ _ hatt hfin hset
          · exact keptOnThrow_returned _ _ _ _

/-- The tables a thrown call leaves behind. -/
theorem recordAttendanceFailing_thrown (failing : Option Statement) (cfg : Config)
    (flag : Option Bool) (now tid : Int) (ts : TimestampArg) (un fn : Option String) (db : DB) :
    KeptOnThrow db (getOrCreateUser tid un fn db).2.users
      (recordAttendanceFailing failing cfg flag now tid ts un fn db) := by
  have hatt := getOrCreateUser_attendance tid un fn db
  have hfin := getOrCreateUser_fines tid un fn db
  have hset := getOrCreateUser_settings tid un fn db
  unfold recordAttendanceFailing
  simp only []
  split
  · exact keptOnThrow_returned _ _ _ _
  · split
    · exact keptOnThrow_untouched _ _ _
    · split
      · exact keptOnThrow_untouched _ _ _
      · split
        · exact keptOnThrow_committed _ _ _ hatt hfin hset
        · split
          · exact keptOnThrow_returned _ _ _ _
          · exact recordAttendanceInserts_thrown _ _ _ _ _ _ db _ hatt hfin hset

theorem recordAttendanceInserts_none (cfg : Config) (now ts : Int) (uid : Nat) (date : Int)
    (committed : DB) :
    recordAttendanceInserts none cfg now ts uid date committed
      = if isBeforeDeadline (some ts) now then
          (Ending.returned onTimeResult,
            insertAttendance committed uid date Status.present (some ts))
        else
          (Ending.returned lateResult,
            insertFine (insertAttendance committed uid date Status.late (some ts)) uid date
              (getFineAmount cfg (insertAttendance committed uid date Status.late (some ts)))) := by
  unfold recordAttendanceInserts
  simp only [reduceCtorEq, if_false]
  split <;> rfl

/-- Without a failing statement the model with failures is `recordAttendance`. -/
theorem recordAttendanceFailing_none (cfg : Config) (flag : Option Bool) (now tid : Int)
    (ts : TimestampArg) (un fn : Option String) (db : DB) :
    recordAttendanceFailing none cfg flag now tid ts un fn db
      = (Ending.returned (recordAttendance cfg flag now tid ts un fn db).1,
          (recordAttendance cfg flag now tid ts un fn db).2) := by
  unfold recordAttendanceFailing recordAttendance
  simp only [reduceCtorEq, if_false, recordAttendanceInserts_none]
  split
  · rfl
  · split
    · rfl
    · split <;> rfl

theorem recordAttendanceFailing_closed (failing : Option Statement) (cfg : Config)
    (flag : Option Bool) (now tid : Int) (ts : TimestampArg) (un fn : Option String) (db : DB)
    (hclosed : isAttendanceWindowOpen cfg flag now = false) :
    recordAttendanceFailing failing cfg flag now tid ts un fn db
      = (Ending.returned windowClosedResult, db) := by
  unfold recordAttendanceFailing
  simp only [hclosed, Bool.not_false, if_true]

theorem recordAttendanceFailing_begin (cfg : Config) (flag : Option Bool) (now tid : Int)
    (ts : TimestampArg) (un fn : Option String) (db : DB)
    (hopen : isAttendanceWindowOpen cfg flag now = true) :
    recordAttendanceFailing (some Statement.begin) cfg flag now tid ts un fn db
      = (Ending.thrown Statement.begin, db) := by
  unfold recordAttendanceFailing
  simp only [hopen, Bool.not_true, Bool.false_eq_true, if_false, if_true]

theorem recordAttendanceFailing_member (cfg : Config) (flag : Option Bool) (now tid : Int)
    (ts : TimestampArg) (un fn : Option String) (db : DB)
    (hopen : isAttendanceWindowOpen cfg flag now = true) :
    recordAttendanceFailing (some Statement.getOrCreateUser) cfg flag now tid ts un fn db
      = (Ending.thrown Statement.getOrCreateUser, db) := by
  unfold recordAttendanceFailing
  simp only [hopen, Bool.not_true, Bool.false_eq_true, if_false, if_true, Option.some.injEq,
    reduceCtorEq]

theorem recordAttendanceFailing_select (cfg : Config) (flag : Option Bool) (now tid : Int)
    (ts : TimestampArg) (un fn : Option String) (db : DB)
    (hopen : isAttendanceWindowOpen cfg flag now = true) :
    recordAttendanceFailing (some Statement.selectExisting) cfg flag now tid ts un fn db
      = (Ending.thrown Statement.selectExisting, (getOrCreateUser tid un fn db).2) := by
  unfold recordAttendanceFailing
  simp only [hopen, Bool.not_true, Bool.false_eq_true, if_false, if_true, Option.some.injEq,
    reduceCtorEq]

/-- A failure set for a statement after the existence check does not show
when the member has a record: the call returns already recorded. -/
theorem recordAttendanceFailing_existing (failing : Option Statement) (cfg : Config)
    (flag : Option Bool) (now tid : Int) (ts : TimestampArg) (un fn : Option String) (db : DB)
    (hopen : isAttendanceWindowOpen cfg flag now = true)
    (hsome : selectAttendance db (memberId db tid) (getPhnomPenhDate now) ≠ [])
    (h1 : failing ≠ some Statement.begin) (h2 : failing ≠ some Statement.getOrCreateUser)
    (h3 : failing ≠ some Statement.selectExisting) :
    recordAttendanceFailing failing cfg flag now tid ts un fn db
      = (Ending.returned alreadyRecordedResult, (getOrCreateUser tid un fn db).2) := by
  have hsel : 0 < (selectAttendance (getOrCreateUser tid un fn db).2
      (memberId db tid) (getPhnomPenhDate now)).length := by
    rw [getOrCreateUser_select]
    exact List.length_pos.mpr hsome
  unfold recordAttendanceFailing
  simp only [getOrCreateUser_id, hopen, Bool.not_true, Bool.false_eq_true, if_false, gt_iff_lt,
    hsel, if_true, h1, h2, h3]

/-- With the window open and no record for the member, the call reaches the
inserts. -/
theorem recordAttendanceFailing_inserts (failing : Option Statement) (cfg : Config)
    (flag : Option Bool) (now tid : Int) (ts : TimestampArg) (un fn : Option String) (db : DB)
    (hopen : isAttendanceWindowOpen cfg flag now = true)
    (hnone : selectAttendance db (memberId db tid) (getPhnomPenhDate now) = [])
    (h1 : failing ≠ some Statement.begin) (h2 : failing ≠ some Statement.getOrCreateUser)
    (h3 : failing ≠ some Statement.selectExisting) :
    recordAttendanceFailing failing cfg flag now tid ts un fn db
      = recordAttendanceInserts failing cfg now (resolveTimestamp ts now) (memberId db tid)
          (getPhnomPenhDate now) (getOrCreateUser tid un fn db).2 := by
  have hsel : selectAttendance (getOrCreateUser tid un fn db).2
      (memberId db tid) (getPhnomPenhDate now) = [] := by
    rw [getOrCreateUser_select, hnone]
  unfold recordAttendanceFailing
  simp only [getOrCreateUser_id, hopen, hsel, Bool.not_true, Bool.false_eq_true, if_false,
    List.length_nil, gt_iff_lt, lt_self_iff_false, h1, h2, h3]

theorem recordAttendanceInserts_insertAttendance (cfg : Config) (now ts : Int) (uid : Nat)
    (date : Int) (committed : DB) :
    recordAttendanceInserts (some Statement.insertAttendance) cfg now ts uid date committed
      = (Ending.thrown Statement.insertAttendance, committed) := by
  unfold recordAttendanceInserts
  simp only [if_true]

theorem recordAttendanceInserts_commit (cfg : Config) (now ts : Int) (uid : Nat)
    (date : Int) (committed : DB) :
    ∃ work : DB,
      recordAttendanceInserts (some Statement.commit) cfg now ts uid date committed
        = (Ending.thrown Statement.commit, rollback committed work) := by
  unfold recordAttendanceInserts
  simp only [Option.some.injEq, reduceCtorEq, if_false, if_true]
  split
  · exact ⟨_, rfl⟩
  · exact ⟨_, rfl⟩

theorem recordAttendanceInserts_fine_late (s : Statement) (cfg : Config) (now ts : Int)
    (uid : Nat) (date : Int) (committed : DB)
    (hs : s = Statement.getFineAmount ∨ s = Statement.insertFine)
    (hlate : isBeforeDeadline (some ts) now = false) :
    ∃ work : DB,
      recordAttendanceInserts (some s) cfg now ts uid date committed
        = (Ending.thrown s, rollback committed work) := by
  unfold recordAttendanceInserts
  rcases hs with rfl | rfl
  · simp only [Option.some.injEq, reduceCtorEq, if_false, if_true, hlate, Bool.false_eq_true]
    exact ⟨_, rfl⟩
  · simp only [Option.some.injEq, reduceCtorEq, if_false, if_true, hlate, Bool.false_eq_true]
    exact ⟨_, rfl⟩

theorem recordAttendanceInserts_fine_onTime (s : Statement) (cfg : Config) (now ts : Int)
    (uid : Nat) (date : Int) (committed : DB)
    (hs : s = Statement.getFineAmount ∨ s = Statement.insertFine)
    (hon : isBeforeDeadline (some ts) now = true) :
    recordAttendanceInserts (some s) cfg now ts uid date committed
      = recordAttendanceInserts none cfg now ts uid date committed := by
  unfold recordAttendanceInserts
  rcases hs with rfl | rfl
  · simp only [Option.some.injEq, reduceCtorEq, if_false, if_true, hon]
  · simp only [Option.some.injEq, reduceCtorEq, if_false, if_true, hon]

theorem isBeforeDeadline_of_classify (instant clock : Int) :
    (classify instant = Status.late → isBeforeDeadline (some instant) clock = false)
      ∧ (classify instant ≠ Status.late → isBeforeDeadline (some instant) clock = true) := by
  have h := classify_eq instant clock
  cases hb : isBeforeDeadline (some instant) clock with
  | false =>
    rw [hb] at h
    simp only [Bool.false_eq_true, if_false] at h
    exact ⟨fun _ => rfl, fun hne => absurd h.symm hne⟩
  | true =>
    rw [hb] at h
    simp only [if_true] at h
    refine ⟨fun hl => ?_, fun _ => rfl⟩
    rw [← h] at hl
    exact Status.noConfusion hl

/-- A reached statement that fails makes the call throw and leaves the
tables rolled back. -/
theorem recordAttendanceFailing_reached (s : Statement) (cfg : Config) (flag : Option Bool)
    (now tid : Int) (ts : TimestampArg) (un fn : Option String) (db : DB)
    (hreached : statementReached s cfg flag now tid ts db) :
    (recordAttendanceFailing (some s) cfg flag now tid ts un fn db).1 = Ending.thrown s
      ∧ (recordAttendanceFailing (some s) cfg flag now tid ts un fn db).2.attendance_records
        = db.attendance_records
      ∧ (recordAttendanceFailing (some s) cfg flag now tid ts un fn db).2.fines = db.fines
      ∧ (recordAttendanceFailing (some s) cfg flag now tid ts un fn db).2.settings
        = db.settings
      ∧ (recordAttendanceFailing (some s) cfg flag now tid ts un fn db).2.users
        = (if s = Statement.begin ∨ s = Statement.getOrCreateUser then db.users
           else (getOrCreateUser tid un fn db).2.users) := by
  have hatt := getOrCreateUser_attendance tid un fn db
  have hfin := getOrCreateUser_fines tid un fn db
  have hset := getOrCreateUser_settings tid un fn db
  obtain ⟨hopen, hr⟩ := hreached
  cases s with
  | begin =>
    rw [recordAttendanceFailing_begin cfg flag now tid ts un fn db hopen]
    exact ⟨rfl, rfl, rfl, rfl, by simp⟩
  | getOrCreateUser =>
    rw [recordAttendanceFailing_member cfg flag now tid ts un fn db hopen]
    exact ⟨rfl, rfl, rfl, rfl, by simp⟩
  | selectExisting =>
    rw [recordAttendanceFailing_select cfg flag now tid ts un fn db hopen]
    exact ⟨rfl, hatt, hfin, hset, by simp⟩
  | insertAttendance =>
    simp only [reduceCtorEq, false_or, true_or, and_true] at hr
    rw [recordAttendanceFailing_inserts _ cfg flag now tid ts un fn db hopen hr (by simp)
      (by simp) (by simp), recordAttendanceInserts_insertAttendance]
    exact ⟨rfl, hatt, hfin, hset, by simp⟩
  | commit =>
    simp only [reduceCtorEq, false_or, true_or, or_true, and_true] at hr
    obtain ⟨work, hw⟩ := recordAttendanceInserts_commit cfg now (resolveTimestamp ts now)
      (memberId db tid) (getPhnomPenhDate now) (getOrCreateUser tid un fn db).2
    rw [recordAttendanceFailing_inserts _ cfg flag now tid ts un fn db hopen hr (by simp)
      (by simp) (by simp), hw]
    exact ⟨rfl, hatt, hfin, hset, by simp [rollback]⟩
  | getFineAmount =>
    simp only [reduceCtorEq, false_or] at hr
    obtain ⟨work, hw⟩ := recordAttendanceInserts_fine_late Statement.getFineAmount cfg now
      (resolveTimestamp ts now) (memberId db tid) (getPhnomPenhDate now)
      (getOrCreateUser tid un fn db).2 (Or.inl rfl)
      ((isBeforeDeadline_of_classify _ now).1 hr.2)
    rw [recordAttendanceFailing_inserts _ cfg flag now tid ts un fn db hopen hr.1 (by simp)
      (by simp) (by simp), hw]
    exact ⟨rfl, hatt, hfin, hset, by simp [rollback]⟩
  | insertFine =>
    simp only [reduceCtorEq, false_or] at hr
    obtain ⟨work, hw⟩ := recordAttendanceInserts_fine_late Statement.insertFine cfg now
      (resolveTimestamp ts now) (memberId db tid) (getPhnomPenhDate now)
      (getOrCreateUser tid un fn db).2 (Or.inr rfl)
      ((isBeforeDeadline_of_classify _ now).1 hr.2)
    rw [recordAttendanceFailing_inserts _ cfg flag now tid ts un fn db hopen hr.1 (by simp)
      (by simp) (by simp), hw]
    exact ⟨rfl, hatt, hfin, hset, by simp [rollback]⟩

/-- A statement that is not reached cannot fail: the call runs as it does
without a failure. -/
theorem recordAttendanceFailing_not_reached (s : Statement) (cfg : Config)
    (flag : Option Bool) (now tid : Int) (ts : TimestampArg) (un fn : Option String) (db : DB)
    (hnot : ¬ statementReached s cfg flag now tid ts db) :
    recordAttendanceFailing (some s) cfg flag now tid ts un fn db
      = (Ending.returned (recordAttendance cfg flag now tid ts un fn db).1,
          (recordAttendance cfg flag now tid ts un fn db).2) := by
  by_cases hopen : isAttendanceWindowOpen cfg flag now = true
  · have hs1 : s ≠ Statement.begin := fun h => hnot ⟨hopen, Or.inl h⟩
    have hs2 : s ≠ Statement.getOrCreateUser := fun h => hnot ⟨hopen, Or.inr (Or.inl h)⟩
    have hs3 : s ≠ Statement.selectExisting :=
      fun h => hnot ⟨hopen, Or.inr (Or.inr (Or.inl h))⟩
    have h1 : some s ≠ some Statement.begin := fun h => hs1 (Option.some.inj h)
    have h2 : some s ≠ some Statement.getOrCreateUser := fun h => hs2 (Option.some.inj h)
    have h3 : some s ≠ some Statement.selectExisting := fun h => hs3 (Option.some.inj h)
    by_cases hnone : selectAttendance db (memberId db tid) (getPhnomPenhDate now) = []
    · have hs4 : s ≠ Statement.insertAttendance :=
        fun h => hnot ⟨hopen, Or.inr (Or.inr (Or.inr ⟨hnone, Or.inl h⟩))⟩
      have hs5 : s ≠ Statement.commit :=
        fun h => hnot ⟨hopen, Or.inr (Or.inr (Or.inr ⟨hnone, Or.inr (Or.inl h)⟩))⟩
      have hlate : classify (resolveTimestamp ts now) ≠ Status.late :=
        fun h => hnot ⟨hopen, Or.inr (Or.inr (Or.inr ⟨hnone, Or.inr (Or.inr h)⟩))⟩
      have hon := (isBeforeDeadline_of_classify (resolveTimestamp ts now) now).2 hlate
      have hs : s = Statement.getFineAmount ∨ s = Statement.insertFine := by
        cases s
        · exact absurd rfl hs1
        · exact absurd rfl hs2
        · exact absurd rfl hs3
        · exact absurd rfl hs4
        · exact Or.inl rfl
        · exact Or.inr rfl
        · exact absurd rfl hs5
      rw [recordAttendanceFailing_inserts _ cfg flag now tid ts un fn db hopen hnone h1 h2 h3,
        recordAttendanceInserts_fine_onTime s cfg now _ _ _ _ hs hon,
        recordAttendanceInserts_none, if_pos hon,
        recordAttendance_accept cfg flag now tid ts un fn db hopen hnone, if_pos hon]
    · rw [recordAttendanceFailing_existing _ cfg flag now tid ts un fn db hopen hnone h1 h2 h3,
        recordAttendance_reject cfg flag now tid ts un fn db hopen hnone]
  · rw [Bool.not_eq_true] at hopen
    rw [recordAttendanceFailing_closed _ cfg flag now tid ts un fn db hopen,
      recordAttendance_closed cfg flag now tid ts un fn db hopen]

/-- C11, as the code has it: when a statement of `recordAttendance` that the
call reaches fails, the call ends in that error and the attendance records, the
fines and the settings are exactly those of before the call, so no record is
left without its fine. The member rows are those of before the call when `BEGIN`
or the member upsert fails, and otherwise those the upsert of `getOrCreateUser`
has committed on its own connection. A statement that is not reached cannot
fail, and the call then runs as `recordAttendance`. -/
theorem rollback_keeps_ledger (s : Statement) (cfg : Config) (flag : Option Bool)
    (now tid : Int) (ts : TimestampArg) (un fn : Option String) (db : DB) :
    (statementReached s cfg flag now tid ts db →
        (recordAttendanceFailing (some s) cfg flag now tid ts un fn db).1 = Ending.thrown s
          ∧ (recordAttendanceFailing (some s) cfg flag now tid ts un fn db).2.attendance_records
            = db.attendance_records
          ∧ (recordAttendanceFailing (some s) cfg flag now tid ts un fn db).2.fines = db.fines
          ∧ (recordAttendanceFailing (some s) cfg flag now tid ts un fn db).2.settings
            = db.settings
          ∧ (recordAttendanceFailing (some s) cfg flag now tid ts un fn db).2.users
            = (if s = Statement.begin ∨ s = Statement.getOrCreateUser then db.users
               else (getOrCreateUser tid un fn db).2.users))
      ∧ (¬ statementReached s cfg flag now tid ts db →
          recordAttendanceFailing (some s) cfg flag now tid ts un fn db
            = (Ending.returned (recordAttendance cfg flag now tid ts un fn db).1,
                (recordAttendance cfg flag now tid ts un fn db).2))
      ∧ recordAttendanceFailing none cfg flag now tid ts un fn db
          = (Ending.returned (recordAttendance cfg flag now tid ts un fn db).1,
              (recordAttendance cfg flag now tid ts un fn db).2) :=
  ⟨recordAttendanceFailing_reached s cfg flag now tid ts un fn db,
   recordAttendanceFailing_not_reached s cfg flag now tid ts un fn db,
   recordAttendanceFailing_none cfg flag now tid ts un fn db⟩

theorem rollback_keeps_ledger_witness :
    (recordAttendanceFailing (some Statement.insertFine) wideConfig (some true) sampleLateNow
        102 TimestampArg.null none none sampleDb).1 = Ending.thrown Statement.insertFine
      ∧ (recordAttendanceFailing (some Statement.insertFine) wideConfig (some true)
        sampleLateNow 102 TimestampArg.null none none sampleDb).2.attendance_records
        = sampleDb.attendance_records
      ∧ (recordAttendanceFailing (some Statement.insertFine) wideConfig (some true)
        sampleLateNow 102 TimestampArg.null none none sampleDb).2.fines = sampleDb.fines :=
  ⟨((rollback_keeps_ledger Statement.insertFine wideConfig (some true) sampleLateNow
      102 TimestampArg.null none none sampleDb).1
      ⟨by decide, Or.inr (Or.inr (Or.inr ⟨by decide, Or.inr (Or.inr (by decide))⟩))⟩).1,
   ((rollback_keeps_ledger Statement.insertFine wideConfig (some true) sampleLateNow
      102 TimestampArg.null none none sampleDb).1
      ⟨by decide, Or.inr (Or.inr (Or.inr ⟨by decide, Or.inr (Or.inr (by decide))⟩))⟩).2.1,
   ((rollback_keeps_ledger Statement.insertFine wideConfig (some true) sampleLateNow
      102 TimestampArg.null none none sampleDb).1
      ⟨by decide, Or.inr (Or.inr (Or.inr ⟨by decide, Or.inr (Or.inr (by decide))⟩))⟩).2.2.1⟩

/-- C11 fails for the member row: the late check-in of the new member 555
throws at the fine insert, after the attendance record was inserted, and the
store is not the one of before the call, it holds the new member. -/
theorem rollback_keeps_member_counterexample :
    (recordAttendanceFailing (some Statement.insertFine) wideConfig (some true) sampleLateNow
        555 TimestampArg.null (some "dan") none sampleDb).1
        = Ending.thrown Statement.insertFine
      ∧ (recordAttendanceFailing (some Statement.insertFine) wideConfig (some true)
        sampleLateNow 555 TimestampArg.null (some "dan") none sampleDb).2 ≠ sampleDb
      ∧ (recordAttendanceFailing (some Statement.insertFine) wideConfig (some true)
        sampleLateNow 555 TimestampArg.null (some "dan") none sampleDb).2.users
        = sampleDb.users ++
            [{ id := 4, telegram_id := 555, username := some "dan", full_name := none,
               is_active := true }] := by
  decide

/-! ## Fines and records -/

theorem fineConsistent_of_tables (db db' : DB)
    (hatt : db'.attendance_records = db.attendance_records) (hfin : db'.fines = db.fines)
    (h : FineConsistent db) : FineConsistent db' := by
  intro u d
  have hu := h u d
  unfold selectFines selectAttendance at hu ⊢
  rw [hatt, hfin]
  exact hu

theorem exists_mem_append_ite {α : Type} (l : List α) (c : Prop) [Decidable c] (p : α)
    (Q : α → Prop) (hp : ¬ Q p) :
    (∃ r ∈ l ++ (if c then [p] else []), Q r) ↔ ∃ r ∈ l, Q r := by
  constructor
  · rintro ⟨r, hr, hq⟩
    rcases List.mem_append.mp hr with hl | hr'
    · exact ⟨r, hl, hq⟩
    · split at hr'
      · rw [List.mem_singleton] at hr'
        rw [hr'] at hq
        exact absurd hq hp
      · simp at hr'
  · rintro ⟨r, hr, hq⟩
    exact ⟨r, List.mem_append_left _ hr, hq⟩

/-- A `present` record may be inserted anywhere. -/
theorem insertAttendance_present_consistent (db : DB) (u : Nat) (d : Int) (ts : Option Int)
    (h : FineConsistent db) :
    FineConsistent (insertAttendance db u d Status.present ts) := by
  intro u' d'
  have hu := h u' d'
  have hf : selectFines (insertAttendance db u d Status.present ts) u' d'
      = selectFines db u' d' := rfl
  rw [hf, selectAttendance_insertAttendance]
  refine ⟨hu.1, hu.2.trans (exists_mem_append_ite _ _ _ _ ?_).symm⟩
  rintro (hq | hq) <;> exact Status.noConfusion hq

/-- A late or absent record with its fine may be inserted for a pair that has
no record. -/
theorem insertFined_consistent (db : DB) (u : Nat) (d : Int) (st : Status) (ts : Option Int)
    (a : Amount) (h : FineConsistent db) (hnone : selectAttendance db u d = [])
    (hst : st = Status.late ∨ st = Status.absent) :
    FineConsistent (insertFine (insertAttendance db u d st ts) u d a) := by
  intro u' d'
  have hu := h u' d'
  have hf : selectFines (insertAttendance db u d st ts) u' d' = selectFines db u' d' := rfl
  rw [selectFines_insertFine, hf, selectAttendance_insertFine,
    selectAttendance_insertAttendance]
  by_cases hk : u = u' ∧ d = d'
  · obtain ⟨rfl, rfl⟩ := hk
    have hnofine : selectFines db u d = [] := by
      by_contra hne
      obtain ⟨r, hr, _⟩ := hu.2.mp hne
      rw [hnone] at hr
      simp at hr
    rw [hnofine, hnone]
    simp [hst]
  · simp only [if_neg hk, List.append_nil]
    exact hu

/-- Deleting the record and the fine of a pair together. -/
theorem deleteBoth_consistent (db : DB) (u : Nat) (d : Int) (h : FineConsistent db) :
    FineConsistent (deleteFines (deleteAttendance db u d) u d) := by
  intro u' d'
  have hu := h u' d'
  have hf : selectFines (deleteFines (deleteAttendance db u d) u d) u' d'
      = selectFines (deleteFines db u d) u' d' := rfl
  rw [hf, selectFines_deleteFines, selectAttendance_deleteFines,
    selectAttendance_deleteAttendance]
  by_cases hk : u' = u ∧ d' = d
  · simp [hk]
  · simp only [if_neg hk]
    exact hu

theorem recordAttendance_consistent (cfg : Config) (flag : Option Bool) (now tid : Int)
    (ts : TimestampArg) (un fn : Option String) (db : DB) (h : FineConsistent db) :
    FineConsistent (recordAttendance cfg flag now tid ts un fn db).2 := by
  have hcreated : FineConsistent (getOrCreateUser tid un fn db).2 :=
    fineConsistent_of_tables db _ (getOrCreateUser_attendance tid un fn db)
      (getOrCreateUser_fines tid un fn db) h
  by_cases hopen : isAttendanceWindowOpen cfg flag now = true
  · by_cases hnone : selectAttendance db (memberId db tid) (getPhnomPenhDate now) = []
    · have hnone' : selectAttendance (getOrCreateUser tid un fn db).2 (memberId db tid)
          (getPhnomPenhDate now) = [] := by
        rw [getOrCreateUser_select]
        exact hnone
      rw [recordAttendance_accept cfg flag now tid ts un fn db hopen hnone]
      split
      · exact insertAttendance_present_consistent _ _ _ _ hcreated
      · exact insertFined_consistent _ _ _ _ _ _ hcreated hnone' (Or.inl rfl)
    · rw [recordAttendance_reject cfg flag now tid ts un fn db hopen hnone]
      exact hcreated
  · rw [Bool.not_eq_true] at hopen
    rw [recordAttendance_closed cfg flag now tid ts un fn db hopen]
    exact h

theorem sweepUser_consistent (date : Int) (a : Amount) (db : DB) (user : User)
    (h : FineConsistent db) : FineConsistent (sweepUser date a db user) := by
  by_cases hnone : selectAttendance db user.id date = []
  · rw [sweepUser_mark date a db user hnone]
    exact insertFined_consistent _ _ _ _ _ _ h hnone (Or.inr rfl)
  · rw [sweepUser_skip date a db user hnone]
    exact h

theorem foldl_sweepUser_consistent (date : Int) (a : Amount) (users : List User) (db : DB)
    (h : FineConsistent db) : FineConsistent (users.foldl (sweepUser date a) db) := by
  induction users generalizing db with
  | nil => exact h
  | cons u us ih => exact ih _ (sweepUser_consistent date a db u h)

theorem forceMarkAttendance_notFound (cfg : Config) (now tid : Int) (status : String)
    (target : Option Int) (db : DB) (hnone : selectUsersByTelegramId db tid = []) :
    forceMarkAttendance cfg now tid status target db = (false, db) := by
  unfold forceMarkAttendance
  rw [hnone]

theorem forceMarkAttendance_consistent (cfg : Config) (now tid : Int) (status : String)
    (target : Option Int) (db : DB) (h : FineConsistent db) :
    FineConsistent (forceMarkAttendance cfg now tid status target db).2 := by
  cases hsel : selectUsersByTelegramId db tid with
  | nil =>
    rw [forceMarkAttendance_notFound cfg now tid status target db hsel]
    exact h
  | cons member rest =>
    have hmember : (selectUsersByTelegramId db tid).head? = some member := by
      rw [hsel]
      rfl
    rw [forceMarkAttendance_found cfg now tid status target db member hmember]
    have hdel := deleteBoth_consistent db member.id (resolveTargetDate target now) h
    have hnone : selectAttendance
        (deleteFines (deleteAttendance db member.id (resolveTargetDate target now)) member.id
          (resolveTargetDate target now)) member.id (resolveTargetDate target now) = [] := by
      rw [selectAttendance_deleteFines, selectAttendance_deleteAttendance]
      simp
    split
    · exact insertAttendance_present_consistent _ _ _ _ hdel
    · split
      · exact insertFined_consistent _ _ _ _ _ _ hdel hnone (Or.inr rfl)
      · exact hdel

/-- With unique records and consistent fines, no fine stands next to a
`present` record. -/
theorem present_has_no_fine (db : DB) (hc : FineConsistent db) (hu : UniqueAttendance db)
    (u : Nat) (d : Int) (r : AttendanceRecord) (hr : r ∈ selectAttendance db u d)
    (hp : r.status = Status.present) : selectFines db u d = [] := by
  by_contra hne
  obtain ⟨r', hr', hq⟩ := (hc u d).2.mp hne
  have hlen := hu u d
  have heq : r' = r := by
    cases hl : selectAttendance db u d with
    | nil => rw [hl] at hr; simp at hr
    | cons x xs =>
      cases xs with
      | nil =>
        rw [hl] at hr hr'
        rw [List.mem_singleton] at hr hr'
        rw [hr, hr']
      | cons y ys =>
        rw [hl] at hlen
        simp at hlen
  rw [heq, hp] at hq
  rcases hq with hq | hq <;> exact Status.noConfusion hq

/-- C12: fine and record consistency is preserved by `recordAttendance`,
`processDailyAttendance` and `forceMarkAttendance`. If every (member, day) has at
most one fine, and has a fine exactly when it has a record of status late or
absent, the same holds after the call; with unique records, no operation leaves a
fine next to a `present` record. -/
theorem fine_record_consistency (cfg : Config) (flag : Option Bool) (now tid : Int)
    (ts : TimestampArg) (un fn : Option String) (status : String) (target : Option Int)
    (db : DB) (h : FineConsistent db) :
    FineConsistent (recordAttendance cfg flag now tid ts un fn db).2
      ∧ FineConsistent (processDailyAttendance cfg now db)
      ∧ FineConsistent (forceMarkAttendance cfg now tid status target db).2
      ∧ (UniqueAttendance db →
          ∀ db' ∈ [(recordAttendance cfg flag now tid ts un fn db).2,
                   processDailyAttendance cfg now db,
                   (forceMarkAttendance cfg now tid status target db).2],
            ∀ (u : Nat) (d : Int) (r : AttendanceRecord),
              r ∈ selectAttendance db' u d → r.status = Status.present →
              selectFines db' u d = []) := by
  have h1 := recordAttendance_consistent cfg flag now tid ts un fn db h
  have h2 : FineConsistent (processDailyAttendance cfg now db) :=
    foldl_sweepUser_consistent _ _ _ db h
  have h3 := forceMarkAttendance_consistent cfg now tid status target db h
  refine ⟨h1, h2, h3, ?_⟩
  intro hu db' hdb' u d r hr hp
  simp only [List.mem_cons, List.mem_singleton, List.not_mem_nil, or_false] at hdb'
  rcases hdb' with rfl | rfl | rfl
  · exact present_has_no_fine _ h1 (recordAttendance_unique cfg flag now tid ts un fn db hu)
      u d r hr hp
  · exact present_has_no_fine _ h2 (foldl_sweepUser_unique _ _ _ db hu) u d r hr hp
  · exact present_has_no_fine _ h3 (forceMarkAttendance_unique cfg now tid status target db hu)
      u d r hr hp

theorem sampleDb_consistent : FineConsistent sampleDb := by
  intro u d
  have hf : selectFines sampleDb u d = [] := rfl
  rw [hf]
  refine ⟨Nat.zero_le _, ⟨fun hne => absurd rfl hne, ?_⟩⟩
  rintro ⟨r, hr, hq⟩
  have hmem : r ∈ sampleDb.attendance_records := (List.mem_filter.mp hr).1
  have hst : r.status = Status.present := by
    have hr' : r ∈ [({ id := 1, user_id := 1, date := 20000, status := Status.present,
                       timestamp := some (20000 * 86400000 + 7500000) } : AttendanceRecord)] :=
      hmem
    rw [List.mem_singleton.mp hr']
  rw [hst] at hq
  rcases hq with hq | hq <;> exact Status.noConfusion hq

theorem fine_record_consistency_witness :
    FineConsistent sampleDb
      ∧ FineConsistent
          (recordAttendance wideConfig (some true) sampleLateNow 102 TimestampArg.null none
            none sampleDb).2
      ∧ FineConsistent (processDailyAttendance defaultConfig sampleNow sampleDb)
      ∧ FineConsistent
          (forceMarkAttendance defaultConfig sampleNow 101 "absent" none sampleDb).2 :=
  ⟨sampleDb_consistent,
   (fine_record_consistency wideConfig (some true) sampleLateNow 102 TimestampArg.null none
      none "absent" none sampleDb sampleDb_consistent).1,
   (fine_record_consistency defaultConfig (some true) sampleNow 101 TimestampArg.null none
      none "absent" none sampleDb sampleDb_consistent).2.1,
   (fine_record_consistency defaultConfig (some true) sampleNow 101 TimestampArg.null none
      none "absent" none sampleDb sampleDb_consistent).2.2.1⟩

/-! ## Reports -/

theorem daysFromCivil_day (y m d : Int) :
    daysFromCivil y m d = daysFromCivil y m 1 + (d - 1) := by
  unfold daysFromCivil
  simp only []
  omega

theorem monthlyRecord_totalPresent (year month : Int) (db : DB) (user : User) :
    (monthlyRecord year month db user).totalPresent
      = (presentDaysOfMonth db user.id year month).card := by
  unfold monthlyRecord presentDaysOfMonth
  simp only []
  rw [← List.card_toFinset]
  congr 1
  ext d
  simp only [List.mem_toFinset, List.mem_map, List.mem_filter, Finset.mem_filter,
    Finset.mem_Icc, Bool.and_eq_true, beq_iff_eq, decide_eq_true_eq]
  constructor
  · rintro ⟨r, ⟨⟨hmem, ⟨hu, hs⟩, he⟩, hp⟩, rfl⟩
    exact ⟨⟨hs, he⟩, r, hmem, hu, rfl, hp⟩
  · rintro ⟨⟨hs, he⟩, r, hmem, hu, rfl, hp⟩
    exact ⟨r, ⟨⟨hmem, ⟨hu, hs⟩, he⟩, hp⟩, rfl⟩

theorem presentDaysOfMonth_card_le (db : DB) (userId : Nat) (year month : Int) :
    (presentDaysOfMonth db userId year month).card ≤ lastDayOfMonth year month := by
  unfold presentDaysOfMonth
  refine le_trans (Finset.card_filter_le _ _) ?_
  rw [Int.card_Icc, daysFromCivil_day year month (lastDayOfMonth year month)]
  omega

/-- C13: monthly arithmetic. For every member row, year and month the monthly
report's `totalPresent` is the number of distinct days of the month on which the
member has a `present` record, `totalAbsent` is the length of the month minus
`totalPresent`, so the two add up to the length of the month and a day with a
late status or with no record counts as absent; a month of 30 days with 10
distinct present days gives `totalAbsent = 20`. The rows are those of the active
members. -/
theorem monthly_arithmetic (year month : Int) (db : DB) (user : User) :
    (monthlyRecord year month db user).totalPresent
        = (presentDaysOfMonth db user.id year month).card
      ∧ (monthlyRecord year month db user).totalAbsent
        = (lastDayOfMonth year month : Int) - (monthlyRecord year month db user).totalPresent
      ∧ ((monthlyRecord year month db user).totalPresent : Int)
          + (monthlyRecord year month db user).totalAbsent = lastDayOfMonth year month
      ∧ 0 ≤ (monthlyRecord year month db user).totalAbsent
      ∧ (lastDayOfMonth year month = 30 →
          (presentDaysOfMonth db user.id year month).card = 10 →
          (monthlyRecord year month db user).totalAbsent = 20)
      ∧ exportMonthlyCSV year month db
        = (db.users.filter (fun u => u.is_active)).map (monthlyRecord year month db)
      ∧ daysFromCivil year month (lastDayOfMonth year month)
        = daysFromCivil year month 1 + ((lastDayOfMonth year month : Int) - 1) := by
  have hp := monthlyRecord_totalPresent year month db user
  have hle := presentDaysOfMonth_card_le db user.id year month
  have ha : (monthlyRecord year month db user).totalAbsent
      = (lastDayOfMonth year month : Int)
          - (monthlyRecord year month db user).totalPresent := rfl
  refine ⟨hp, ha, ?_, ?_, ?_, rfl, daysFromCivil_day _ _ _⟩
  · rw [ha]
    omega
  · rw [ha, hp]
    omega
  · intro h30 h10
    rw [ha, hp, h30, h10]
    rfl

theorem monthly_arithmetic_witness :
    lastDayOfMonth 2024 11 = 30
      ∧ (exportMonthlyCSV 2024 11 novemberDb).map (fun row => row.totalPresent) = [10]
      ∧ (monthlyRecord 2024 11 novemberDb
          { id := 1, telegram_id := 101, username := some "alice", full_name := none,
            is_active := true }).totalAbsent = 20 :=
  ⟨by decide, by decide,
   (monthly_arithmetic 2024 11 novemberDb
      { id := 1, telegram_id := 101, username := some "alice", full_name := none,
        is_active := true }).2.2.2.2.1 (by decide)
      ((monthly_arithmetic 2024 11 novemberDb
        { id := 1, telegram_id := 101, username := some "alice", full_name := none,
          is_active := true }).1.symm.trans (by decide))⟩

theorem dailyReportStep_users (db : DB) (date : Int) (a : Amount)
    (lists : List PresentItem × List AbsentItem) (user : User) :
    (dailyReportStep db date a lists user).1.map (fun i => i.user)
        = lists.1.map (fun i => i.user) ++ (if reportedPresent db date user then [user] else [])
      ∧ (dailyReportStep db date a lists user).2.map (fun i => i.user)
        = lists.2.map (fun i => i.user)
            ++ (if reportedPresent db date user then [] else [user]) := by
  unfold dailyReportStep reportedPresent
  simp only []
  split <;> simp

theorem foldl_dailyReportStep_users (db : DB) (date : Int) (a : Amount) (users : List User)
    (lists : List PresentItem × List AbsentItem) :
    (users.foldl (dailyReportStep db date a) lists).1.map (fun i => i.user)
        = lists.1.map (fun i => i.user) ++ users.filter (fun u => reportedPresent db date u)
      ∧ (users.foldl (dailyReportStep db date a) lists).2.map (fun i => i.user)
        = lists.2.map (fun i => i.user)
            ++ users.filter (fun u => !reportedPresent db date u) := by
  induction users generalizing lists with
  | nil => simp
  | cons u us ih =>
    have hstep := dailyReportStep_users db date a lists u
    have hrest := ih (dailyReportStep db date a lists u)
    rw [List.foldl_cons, hrest.1, hrest.2, hstep.1, hstep.2]
    by_cases hp : reportedPresent db date u = true
    · simp [List.filter_cons, hp]
    · simp [List.filter_cons, hp]

/-- With unique records, `rows[0]` is the record of the member for the day. -/
theorem reportedPresent_iff (db : DB) (date : Int) (user : User) (hu : UniqueAttendance db) :
    reportedPresent db date user = true
      ↔ ∃ r ∈ selectAttendance db user.id date, r.status = Status.present := by
  unfold reportedPresent recordIsPresent
  have hlen := hu user.id date
  cases hl : selectAttendance db user.id date with
  | nil => simp
  | cons x xs =>
    cases xs with
    | nil => simp
    | cons y ys =>
      rw [hl] at hlen
      simp at hlen

/-- C14: daily report partition. `generateDailyReport` places every active
member in exactly one of its two lists, in `present` exactly when the member's
attendance record for the report day has status present and in `absent`
otherwise; `total_members` is the sum of the two lengths and no inactive member
is in either list. -/
theorem daily_report_partition (cfg : Config) (now : Int) (reportDate : Option Int)
    (db : DB) :
    (generateDailyReport cfg now reportDate db).present.map (fun i => i.user)
        = (db.users.filter (fun u => u.is_active)).filter
            (fun u => reportedPresent db (generateDailyReport cfg now reportDate db).date u)
      ∧ (generateDailyReport cfg now reportDate db).absent.map (fun i => i.user)
        = (db.users.filter (fun u => u.is_active)).filter
            (fun u => !reportedPresent db (generateDailyReport cfg now reportDate db).date u)
      ∧ List.Perm
          ((generateDailyReport cfg now reportDate db).present.map (fun i => i.user)
            ++ (generateDailyReport cfg now reportDate db).absent.map (fun i => i.user))
          (db.users.filter (fun u => u.is_active))
      ∧ (generateDailyReport cfg now reportDate db).total_members
        = (generateDailyReport cfg now reportDate db).present.length
            + (generateDailyReport cfg now reportDate db).absent.length
      ∧ (∀ u : User,
          (u ∈ (generateDailyReport cfg now reportDate db).present.map (fun i => i.user)
            ∨ u ∈ (generateDailyReport cfg now reportDate db).absent.map (fun i => i.user))
          → u.is_active = true ∧ u ∈ db.users)
      ∧ (∀ u ∈ db.users, u.is_active = true →
          (u ∈ (generateDailyReport cfg now reportDate db).present.map (fun i => i.user)
              ↔ reportedPresent db (generateDailyReport cfg now reportDate db).date u = true)
            ∧ (u ∈ (generateDailyReport cfg now reportDate db).absent.map (fun i => i.user)
              ↔ reportedPresent db (generateDailyReport cfg now reportDate db).date u
                  = false))
      ∧ (UniqueAttendance db → ∀ u : User,
          (reportedPresent db (generateDailyReport cfg now reportDate db).date u = true
            ↔ ∃ r ∈ selectAttendance db u.id
                  (generateDailyReport cfg now reportDate db).date,
                r.status = Status.present))
      ∧ (generateDailyReport cfg now reportDate db).date
        = (match reportDate with
            | some d => d
            | none => getPhnomPenhDate now) := by
  have hfold := foldl_dailyReportStep_users db (generateDailyReport cfg now reportDate db).date
    (getFineAmount cfg db) (db.users.filter (fun u => u.is_active)) ([], [])
  have hp : (generateDailyReport cfg now reportDate db).present.map (fun i => i.user)
      = (db.users.filter (fun u => u.is_active)).filter
          (fun u => reportedPresent db (generateDailyReport cfg now reportDate db).date u) := by
    simpa using hfold.1
  have ha : (generateDailyReport cfg now reportDate db).absent.map (fun i => i.user)
      = (db.users.filter (fun u => u.is_active)).filter
          (fun u => !reportedPresent db (generateDailyReport cfg now reportDate db).date u) := by
    simpa using hfold.2
  have hperm : List.Perm
      ((generateDailyReport cfg now reportDate db).present.map (fun i => i.user)
        ++ (generateDailyReport cfg now reportDate db).absent.map (fun i => i.user))
      (db.users.filter (fun u => u.is_active)) := by
    rw [hp, ha]
    exact List.filter_append_perm _ _
  refine ⟨hp, ha, hperm, ?_, ?_, ?_, ?_, rfl⟩
  · have hlen := hperm.length_eq
    rw [List.length_append, List.length_map, List.length_map] at hlen
    exact hlen.symm
  · intro u hu
    have hmem : u ∈ db.users.filter (fun u => u.is_active) :=
      hperm.subset (List.mem_append.mpr hu)
    rw [List.mem_filter] at hmem
    exact ⟨hmem.2, hmem.1⟩
  · intro u hu hact
    have hmem : u ∈ db.users.filter (fun u => u.is_active) :=
      List.mem_filter.mpr ⟨hu, hact⟩
    rw [hp, ha]
    constructor
    · rw [List.mem_filter]
      exact ⟨fun h => h.2, fun h => ⟨hmem, h⟩⟩
    · rw [List.mem_filter]
      constructor
      · intro h
        simpa using h.2
      · intro h
        exact ⟨hmem, by simp [h]⟩
  · intro hu u
    exact reportedPresent_iff db _ u hu

/-! ## The window settings -/

/-- C15 on the code: whatever `/set-window` has written, the gate answers from
the environment's window alone. The administrator sets the window to 08:00 to
09:00 and the settings rows hold it, yet with the flag open a check-in at 08:30,
inside the new window, is turned away as window closed, and a check-in at 09:30,
outside it, is accepted under the configured 09:00 to 10:00. -/
theorem set_window_not_read :
    (∀ (cfg : Config) (who : Int) (a b : Option (Nat × Nat)) (flag : Option Bool)
        (now tid : Int) (ts : TimestampArg) (un fn : Option String) (db : DB),
        ((recordAttendance cfg flag now tid ts un fn (setWindow cfg who a b db)).1
            = windowClosedResult
          ↔ ¬ (flag ≠ some false ∧ windowStartMs cfg ≤ timeOfDay now
                ∧ timeOfDay now < windowEndMs cfg)))
      ∧ (setWindow defaultConfig 0 (some (8, 0)) (some (9, 0)) sampleDb).settings.window_start
        = some (8, 0)
      ∧ (setWindow defaultConfig 0 (some (8, 0)) (some (9, 0)) sampleDb).settings.window_end
        = some (9, 0)
      ∧ (recordAttendance defaultConfig (some true) sampleEarlyNow 102 TimestampArg.null none
          none (setWindow defaultConfig 0 (some (8, 0)) (some (9, 0)) sampleDb)).1
        = windowClosedResult
      ∧ (recordAttendance defaultConfig (some true) sampleNow 102 TimestampArg.null none
          none (setWindow defaultConfig 0 (some (8, 0)) (some (9, 0)) sampleDb)).1
        = onTimeResult := by
  refine ⟨?_, by decide, by decide, by decide, by decide⟩
  intro cfg who a b flag now tid ts un fn db
  rw [← isAttendanceWindowOpen_iff]
  constructor
  · intro hres hopen
    exact recordAttendance_open_ne cfg flag now tid ts un fn _ hopen hres
  · intro hclosed
    rw [Bool.not_eq_true] at hclosed
    rw [recordAttendance_closed cfg flag now tid ts un fn _ hclosed]

/-! ## Two calls for one member -/

theorem memberId_congr (db db' : DB) (tid : Int) (husers : db'.users = db.users)
    (hseq : db'.users_id_seq = db.users_id_seq) : memberId db' tid = memberId db tid := by
  unfold memberId selectUsersByTelegramId
  rw [husers, hseq]

/-- After the member upsert the member is found under the same id. -/
theorem memberId_getOrCreateUser (tid : Int) (un fn : Option String) (db : DB) :
    memberId (getOrCreateUser tid un fn db).2 tid = memberId db tid := by
  unfold getOrCreateUser
  cases hsel : selectUsersByTelegramId db tid with
  | nil =>
    simp only []
    unfold memberId selectUsersByTelegramId
    unfold selectUsersByTelegramId at hsel
    simp [List.filter_append, hsel]
  | cons row rest =>
    simp only []
    split
    · unfold memberId selectUsersByTelegramId
      unfold selectUsersByTelegramId at hsel
      simp only []
      rw [List.filter_map]
      have hcomp : ((fun u : User => u.telegram_id == tid) ∘ fun u : User =>
          if (u.telegram_id == tid) = true then
            { u with username := coalesce un u.username, full_name := coalesce fn u.full_name }
          else u) = fun u : User => u.telegram_id == tid := by
        funext u
        simp only [Function.comp]
        split <;> rfl
      rw [hcomp, hsel]
      simp only [List.map_cons]
      split <;> rfl
    · unfold memberId
      rw [hsel]

theorem insertAttendance_memberId (db : DB) (u : Nat) (d : Int) (st : Status)
    (ts : Option Int) (tid : Int) :
    memberId (insertAttendance db u d st ts) tid = memberId db tid := rfl

theorem insertFine_memberId (db : DB) (u : Nat) (d : Int) (a : Amount) (tid : Int) :
    memberId (insertFine db u d a) tid = memberId db tid := rfl

/-- The record an accepted check-in leaves for the member and the day. -/
theorem recordAttendance_accept_select (cfg : Config) (flag : Option Bool) (now tid : Int)
    (ts : TimestampArg) (un fn : Option String) (db : DB)
    (hopen : isAttendanceWindowOpen cfg flag now = true)
    (hnone : selectAttendance db (memberId db tid) (getPhnomPenhDate now) = []) :
    selectAttendance (recordAttendance cfg flag now tid ts un fn db).2 (memberId db tid)
        (getPhnomPenhDate now)
        = [{ id := db.attendance_records_id_seq, user_id := memberId db tid,
             date := getPhnomPenhDate now, status := classify (resolveTimestamp ts now),
             timestamp := some (resolveTimestamp ts now) }]
      ∧ memberId (recordAttendance cfg flag now tid ts un fn db).2 tid = memberId db tid := by
  rw [recordAttendance_accept cfg flag now tid ts un fn db hopen hnone, ← classify_eq _ now]
  split
  · rw [selectAttendance_insertAttendance, getOrCreateUser_select, hnone,
      getOrCreateUser_attendance_seq, insertAttendance_memberId, memberId_getOrCreateUser]
    simp
  · rw [selectAttendance_insertFine, selectAttendance_insertAttendance,
      getOrCreateUser_select, hnone, getOrCreateUser_attendance_seq, insertFine_memberId,
      insertAttendance_memberId, memberId_getOrCreateUser]
    simp

/-- The store takes every insert: the records of the pair grow by one. -/
theorem insertAttendance_never_refused (db : DB) (u : Nat) (d : Int) (st : Status)
    (ts : Option Int) :
    (selectAttendance (insertAttendance db u d st ts) u d).length
      = (selectAttendance db u d).length + 1 := by
  rw [selectAttendance_insertAttendance]
  simp

theorem recordAttendanceInserts_select (cfg : Config) (now ts : Int) (u : Nat) (d : Int)
    (db : DB) :
    (selectAttendance (recordAttendanceInserts none cfg now ts u d db).2 u d).length
        = (selectAttendance db u d).length + 1
      ∧ ∃ r : Result, (recordAttendanceInserts none cfg now ts u d db).1 = Ending.returned r
          ∧ r.success = true := by
  rw [recordAttendanceInserts_none]
  split
  · exact ⟨insertAttendance_never_refused _ _ _ _ _, onTimeResult, rfl, rfl⟩
  · refine ⟨?_, lateResult, rfl, rfl⟩
    rw [selectAttendance_insertFine]
    exact insertAttendance_never_refused _ _ _ _ _

theorem recordAttendanceChecks_pending (cfg : Config) (flag : Option Bool) (now tid : Int)
    (ts : TimestampArg) (un fn : Option String) (db : DB)
    (hopen : isAttendanceWindowOpen cfg flag now = true)
    (hnone : selectAttendance db (memberId db tid) (getPhnomPenhDate now) = []) :
    recordAttendanceChecks cfg flag now tid ts un fn db
      = (Sum.inr { userId := memberId db tid, currentDate := getPhnomPenhDate now,
                   timestamp := resolveTimestamp ts now },
          (getOrCreateUser tid un fn db).2) := by
  have hsel : selectAttendance (getOrCreateUser tid un fn db).2
      (memberId db tid) (getPhnomPenhDate now) = [] := by
    rw [getOrCreateUser_select, hnone]
  unfold recordAttendanceChecks
  simp only [getOrCreateUser_id, hopen, hsel, Bool.not_true, Bool.false_eq_true, if_false,
    List.length_nil, gt_iff_lt, lt_self_iff_false]

theorem recordAttendanceChecks_closed (cfg : Config) (flag : Option Bool) (now tid : Int)
    (ts : TimestampArg) (un fn : Option String) (db : DB)
    (hclosed : isAttendanceWindowOpen cfg flag now = false) :
    recordAttendanceChecks cfg flag now tid ts un fn db = (Sum.inl windowClosedResult, db) := by
  unfold recordAttendanceChecks
  simp only [hclosed, Bool.not_false, if_true]

theorem recordAttendanceChecks_existing (cfg : Config) (flag : Option Bool) (now tid : Int)
    (ts : TimestampArg) (un fn : Option String) (db : DB)
    (hopen : isAttendanceWindowOpen cfg flag now = true)
    (hsome : selectAttendance db (memberId db tid) (getPhnomPenhDate now) ≠ []) :
    recordAttendanceChecks cfg flag now tid ts un fn db
      = (Sum.inl alreadyRecordedResult, (getOrCreateUser tid un fn db).2) := by
  have hsel : 0 < (selectAttendance (getOrCreateUser tid un fn db).2
      (memberId db tid) (getPhnomPenhDate now)).length := by
    rw [getOrCreateUser_select]
    exact List.length_pos.mpr hsome
  unfold recordAttendanceChecks
  simp only [getOrCreateUser_id, hopen, Bool.not_true, Bool.false_eq_true, if_false, gt_iff_lt,
    hsel, if_true]

/-- Run one after the other, the checks and the rest of a call are
`recordAttendance`. -/
theorem recordAttendanceFinish_checks (cfg : Config) (flag : Option Bool) (now tid : Int)
    (ts : TimestampArg) (un fn : Option String) (db : DB) :
    recordAttendanceFinish cfg now (recordAttendanceChecks cfg flag now tid ts un fn db).1
        (recordAttendanceChecks cfg flag now tid ts un fn db).2
      = (Ending.returned (recordAttendance cfg flag now tid ts un fn db).1,
          (recordAttendance cfg flag now tid ts un fn db).2) := by
  by_cases hopen : isAttendanceWindowOpen cfg flag now = true
  · by_cases hnone : selectAttendance db (memberId db tid) (getPhnomPenhDate now) = []
    · rw [recordAttendanceChecks_pending cfg flag now tid ts un fn db hopen hnone,
        recordAttendance_accept cfg flag now tid ts un fn db hopen hnone]
      unfold recordAttendanceFinish
      simp only [recordAttendanceInserts_none]
      have hfine : getFineAmount cfg
          (insertAttendance (getOrCreateUser tid un fn db).2 (memberId db tid)
            (getPhnomPenhDate now) Status.late (some (resolveTimestamp ts now)))
          = getFineAmount cfg db := by
        simp only [getFineAmount, insertAttendance, getOrCreateUser_settings]
      rw [hfine]
      split <;> rfl
    · rw [recordAttendanceChecks_existing cfg flag now tid ts un fn db hopen hnone,
        recordAttendance_reject cfg flag now tid ts un fn db hopen hnone]
      rfl
  · rw [Bool.not_eq_true] at hopen
    rw [recordAttendanceChecks_closed cfg flag now tid ts un fn db hopen,
      recordAttendance_closed cfg flag now tid ts un fn db hopen]
    rfl

theorem foldl_recordAttendance_unique (cfg : Config) (flag : Option Bool) (now : Int)
    (un fn : Option String) (calls : List (Int × TimestampArg)) (db : DB)
    (h : UniqueAttendance db) :
    UniqueAttendance
      (calls.foldl (fun x c => (recordAttendance cfg flag now c.1 c.2 un fn x).2) db) := by
  induction calls generalizing db with
  | nil => exact h
  | cons c cs ih =>
    exact ih _ (recordAttendance_unique cfg flag now c.1 c.2 un fn db h)

/-- Two calls for one member, in general: the store refuses no insert, for the
table has no uniqueness constraint on (member, day). Run one after another, the
second call is turned away as already recorded and one record exists. When both
existence checks run before either insert, both calls succeed and two records
are left for the member and the day. -/
theorem interleaved_checkins_duplicate (cfg : Config) (flag : Option Bool) (now tid : Int)
    (first second : TimestampArg) (un fn : Option String) (db : DB)
    (hopen : isAttendanceWindowOpen cfg flag now = true)
    (hnone : selectAttendance db (memberId db tid) (getPhnomPenhDate now) = []) :
    (∀ (x : DB) (u : Nat) (d : Int) (st : Status) (t : Option Int),
        (selectAttendance (insertAttendance x u d st t) u d).length
          = (selectAttendance x u d).length + 1)
      ∧ (recordAttendance cfg flag now tid second un fn
          (recordAttendance cfg flag now tid first un fn db).2).1 = alreadyRecordedResult
      ∧ (selectAttendance
          (recordAttendance cfg flag now tid second un fn
            (recordAttendance cfg flag now tid first un fn db).2).2
          (memberId db tid) (getPhnomPenhDate now)).length = 1
      ∧ (∀ calls : List (Int × TimestampArg), UniqueAttendance db →
          UniqueAttendance
            (calls.foldl (fun x c => (recordAttendance cfg flag now c.1 c.2 un fn x).2) db))
      ∧ (∃ r1 r2 : Result,
          (interleavedCheckIns cfg flag now tid first second un fn db).1
              = (Ending.returned r1, Ending.returned r2)
            ∧ r1.success = true ∧ r2.success = true)
      ∧ (selectAttendance (interleavedCheckIns cfg flag now tid first second un fn db).2
          (memberId db tid) (getPhnomPenhDate now)).length = 2 := by
  have hfirst := recordAttendance_accept_select cfg flag now tid first un fn db hopen hnone
  have hsome : selectAttendance (recordAttendance cfg flag now tid first un fn db).2
      (memberId (recordAttendance cfg flag now tid first un fn db).2 tid)
      (getPhnomPenhDate now) ≠ [] := by
    rw [hfirst.2, hfirst.1]
    exact List.cons_ne_nil _ _
  have hnone1 : selectAttendance (getOrCreateUser tid un fn db).2
      (memberId (getOrCreateUser tid un fn db).2 tid) (getPhnomPenhDate now) = [] := by
    rw [memberId_getOrCreateUser, getOrCreateUser_select]
    exact hnone
  have ha := recordAttendanceChecks_pending cfg flag now tid first un fn db hopen hnone
  have hb := recordAttendanceChecks_pending cfg flag now tid second un fn
    (getOrCreateUser tid un fn db).2 hopen hnone1
  rw [memberId_getOrCreateUser] at hb
  have hinter : interleavedCheckIns cfg flag now tid first second un fn db
      = ((( recordAttendanceInserts none cfg now (resolveTimestamp first now)
              (memberId db tid) (getPhnomPenhDate now)
              (getOrCreateUser tid un fn (getOrCreateUser tid un fn db).2).2).1,
          (recordAttendanceInserts none cfg now (resolveTimestamp second now)
              (memberId db tid) (getPhnomPenhDate now)
              (recordAttendanceInserts none cfg now (resolveTimestamp first now)
                (memberId db tid) (getPhnomPenhDate now)
                (getOrCreateUser tid un fn (getOrCreateUser tid un fn db).2).2).2).1),
        (recordAttendanceInserts none cfg now (resolveTimestamp second now)
            (memberId db tid) (getPhnomPenhDate now)
            (recordAttendanceInserts none cfg now (resolveTimestamp first now)
              (memberId db tid) (getPhnomPenhDate now)
              (getOrCreateUser tid un fn (getOrCreateUser tid un fn db).2).2).2).2) := by
    unfold interleavedCheckIns
    simp only [ha, hb]
    rfl
  refine ⟨insertAttendance_never_refused, ?_, ?_, ?_, ?_, ?_⟩
  · rw [recordAttendance_reject cfg flag now tid second un fn _ hopen hsome]
  · rw [recordAttendance_reject cfg flag now tid second un fn _ hopen hsome,
      getOrCreateUser_select, hfirst.1]
    rfl
  · intro calls h
    exact foldl_recordAttendance_unique cfg flag now un fn calls db h
  · obtain ⟨r1, h1, hs1⟩ := (recordAttendanceInserts_select cfg now (resolveTimestamp first now)
      (memberId db tid) (getPhnomPenhDate now)
      (getOrCreateUser tid un fn (getOrCreateUser tid un fn db).2).2).2
    obtain ⟨r2, h2, hs2⟩ := (recordAttendanceInserts_select cfg now
      (resolveTimestamp second now) (memberId db tid) (getPhnomPenhDate now)
      (recordAttendanceInserts none cfg now (resolveTimestamp first now)
        (memberId db tid) (getPhnomPenhDate now)
        (getOrCreateUser tid un fn (getOrCreateUser tid un fn db).2).2).2).2
    refine ⟨r1, r2, ?_, hs1, hs2⟩
    rw [hinter, h1, h2]
  · rw [hinter]
    simp only []
    rw [(recordAttendanceInserts_select _ _ _ _ _ _).1,
      (recordAttendanceInserts_select _ _ _ _ _ _).1, getOrCreateUser_select,
      getOrCreateUser_select, hnone]
    rfl

theorem interleaved_checkins_duplicate_witness :
    (recordAttendance defaultConfig (some true) sampleNow 102 TimestampArg.null none none
        (recordAttendance defaultConfig (some true) sampleNow 102 TimestampArg.null none none
          sampleDb).2).1 = alreadyRecordedResult
      ∧ (selectAttendance
          (interleavedCheckIns defaultConfig (some true) sampleNow 102 TimestampArg.null
            TimestampArg.null none none sampleDb).2 2 20000).length = 2 :=
  ⟨(interleaved_checkins_duplicate defaultConfig (some true) sampleNow 102 TimestampArg.null
      TimestampArg.null none none sampleDb (by decide) (by decide)).2.1,
   (interleaved_checkins_duplicate defaultConfig (some true) sampleNow 102 TimestampArg.null
      TimestampArg.null none none sampleDb (by decide) (by decide)).2.2.2.2.2⟩

/-- C16 on the code: from a store with unique records, two concurrent
check-ins of member 102, whose existence checks both run before either insert,
both return success and leave two records for the member and day 20000, so the
records are no longer unique; nothing at the storage layer makes the losing
attempt fail. -/
theorem concurrent_checkins_leave_duplicate :
    UniqueAttendance sampleDb
      ∧ (interleavedCheckIns defaultConfig (some true) sampleNow 102 TimestampArg.null
          TimestampArg.null none none sampleDb).1
        = (Ending.returned onTimeResult, Ending.returned onTimeResult)
      ∧ (selectAttendance
          (interleavedCheckIns defaultConfig (some true) sampleNow 102 TimestampArg.null
            TimestampArg.null none none sampleDb).2 2 20000).length = 2
      ∧ ¬ UniqueAttendance
          (interleavedCheckIns defaultConfig (some true) sampleNow 102 TimestampArg.null
            TimestampArg.null none none sampleDb).2 := by
  refine ⟨sampleDb_unique, by decide, by decide, ?_⟩
  intro h
  exact absurd (h 2 20000) (by decide)

/-! ## A window that ends before the deadline -/

theorem recordAttendance_success (cfg : Config) (flag : Option Bool) (now tid : Int)
    (ts : TimestampArg) (un fn : Option String) (db : DB)
    (hsucc : (recordAttendance cfg flag now tid ts un fn db).1.success = true) :
    isAttendanceWindowOpen cfg flag now = true
      ∧ selectAttendance db (memberId db tid) (getPhnomPenhDate now) = [] := by
  have hopen : isAttendanceWindowOpen cfg flag now = true := by
    by_contra hc
    rw [Bool.not_eq_true] at hc
    rw [recordAttendance_closed cfg flag now tid ts un fn db hc] at hsucc
    exact Bool.false_ne_true hsucc
  refine ⟨hopen, ?_⟩
  by_contra hc
  rw [recordAttendance_reject cfg flag now tid ts un fn db hopen hc] at hsucc
  exact Bool.false_ne_true hsucc

theorem timeOfDay_le_of_same_day (t now : Int)
    (hday : getPhnomPenhDate t = getPhnomPenhDate now) (hle : t ≤ now) :
    timeOfDay t ≤ timeOfDay now := by
  unfold getPhnomPenhDate localMs UTC_OFFSET_MS MS_PER_DAY at hday
  unfold timeOfDay localMs UTC_OFFSET_MS MS_PER_DAY
  omega

/-- C17, as the code has it: with the window end configured at or before 10:00,
a call that succeeds records `present` and creates no fine whenever its check-in
instant is the clock reading or an earlier instant of the same local day. The
status follows the instant passed, not the clock. -/
theorem early_window_present (cfg : Config) (flag : Option Bool) (now tid : Int)
    (ts : TimestampArg) (un fn : Option String) (db : DB)
    (hend : windowEndMs cfg ≤ 10 * MS_PER_HOUR)
    (hsucc : (recordAttendance cfg flag now tid ts un fn db).1.success = true)
    (hday : getPhnomPenhDate (resolveTimestamp ts now) = getPhnomPenhDate now)
    (hle : resolveTimestamp ts now ≤ now) :
    (recordAttendance cfg flag now tid ts un fn db).1 = onTimeResult
      ∧ selectAttendance (recordAttendance cfg flag now tid ts un fn db).2 (memberId db tid)
          (getPhnomPenhDate now)
        = [{ id := db.attendance_records_id_seq, user_id := memberId db tid,
             date := getPhnomPenhDate now, status := Status.present,
             timestamp := some (resolveTimestamp ts now) }]
      ∧ (recordAttendance cfg flag now tid ts un fn db).2.fines = db.fines
      ∧ resolveTimestamp TimestampArg.null now = now := by
  obtain ⟨hopen, hnone⟩ := recordAttendance_success cfg flag now tid ts un fn db hsucc
  have hwin := (isAttendanceWindowOpen_iff cfg flag now).mp hopen
  have htod := timeOfDay_le_of_same_day _ _ hday hle
  have hlt : timeOfDay (resolveTimestamp ts now) < 10 * MS_PER_HOUR :=
    lt_of_le_of_lt htod (lt_of_lt_of_le hwin.2.2 hend)
  have hb : isBeforeDeadline (some (resolveTimestamp ts now)) now = true :=
    (isBeforeDeadline_iff _ now).mpr hlt
  have hcl : classify (resolveTimestamp ts now) = Status.present := by
    unfold classify
    rw [if_pos hlt]
  have hsel := (recordAttendance_accept_select cfg flag now tid ts un fn db hopen hnone).1
  rw [hcl] at hsel
  refine ⟨?_, hsel, ?_, rfl⟩
  · rw [recordAttendance_accept cfg flag now tid ts un fn db hopen hnone, if_pos hb]
  · rw [recordAttendance_accept cfg flag now tid ts un fn db hopen hnone, if_pos hb]
    simp [insertAttendance, getOrCreateUser_fines]

theorem early_window_present_witness :
    windowEndMs earlyConfig ≤ 10 * MS_PER_HOUR
      ∧ (recordAttendance earlyConfig (some true) sampleQuarterNow 102 TimestampArg.null none
          none sampleDb).1 = onTimeResult
      ∧ (recordAttendance earlyConfig (some true) sampleQuarterNow 102 TimestampArg.null none
          none sampleDb).2.fines = sampleDb.fines :=
  ⟨by decide,
   (early_window_present earlyConfig (some true) sampleQuarterNow 102 TimestampArg.null none
      none sampleDb (by decide) (by decide) (by decide) (by decide)).1,
   (early_window_present earlyConfig (some true) sampleQuarterNow 102 TimestampArg.null none
      none sampleDb (by decide) (by decide) (by decide) (by decide)).2.2.1⟩

/-- C17 fails for an instant of another day: the window ends at 09:30, the
clock reads 09:15, and the check-in carries the instant of a message sent the
afternoon before; the call succeeds, records `late` and creates a fine. -/
theorem early_window_late_counterexample :
    windowEndMs earlyConfig < 10 * MS_PER_HOUR
      ∧ (recordAttendance earlyConfig (some true) sampleQuarterNow 102
          (TimestampArg.number sampleYesterdayAfternoon) none none sampleDb).1.success = true
      ∧ selectAttendance
          (recordAttendance earlyConfig (some true) sampleQuarterNow 102
            (TimestampArg.number sampleYesterdayAfternoon) none none sampleDb).2 2 20000
        = [{ id := 2, user_id := 2, date := 20000, status := Status.late,
             timestamp := some sampleYesterdayAfternoon }]
      ∧ (recordAttendance earlyConfig (some true) sampleQuarterNow 102
          (TimestampArg.number sampleYesterdayAfternoon) none none sampleDb).2.fines
        = [{ id := 1, user_id := 2, date := 20000, amount := 20 }] := by
  decide

end Shundori

